import Mathlib

/-!
Verification of the per-device command dispatcher (`readcmd`) of the
ckb-next daemon, as a shallow embedding in Lean 4.

The embedding follows `src/unnamed/part_000` (the dispatcher translation
unit) line by line, for the Linux release build: `OS_MAC` and
`OS_MAC_LEGACY` are not defined (so `LAYOUT`/`ACCEL`/`SCROLLSPEED` are
demoted to `NONE` on recognition and the legacy handlers are absent) and
`NDEBUG` is defined (debug-only logging and the `encounteredleds` scratch
are compiled out).

Machine integers are modelled as `Int`/`Nat` with explicit reduction
modulo powers of two where overflow is observable.  The `sscanf`
conversions used by the dispatcher are modelled with glibc semantics,
which were checked against the C library: a numeric conversion parses an
optional sign and a digit run, saturates at the bounds of the 64-bit
accumulator, and is then truncated to the 32-bit destination.

External collaborators (the device vtable, the notification-node table,
the USB transport, the monotonic clock) are modelled as an oracle
environment `Env` plus an event trace: every call the core makes is
recorded as an `Ev`, and the oracle decides call results and the values
external calls leave behind.
-/

namespace Ckb

/-- Two's-complement truncation to a signed 64-bit value (C `long`). -/
def wrap64 (x : Int) : Int := (x + 2 ^ 63) % 2 ^ 64 - 2 ^ 63

/-- Two's-complement truncation to a signed 32-bit value (C `int`). -/
def wrap32 (x : Int) : Int := (x + 2 ^ 31) % 2 ^ 32 - 2 ^ 31

/-- `LONG_MAX` for the LP64 data model used by the daemon on Linux. -/
def LONG_MAX : Int := 2 ^ 63 - 1

/-- `#define HERTZ_LIM 16528925L // 60.5Hz` -/
def HERTZ_LIM : Int := 16528925

/-- `struct timespec`: seconds and nanoseconds, both C `long` on LP64. -/
structure Timespec where
  tv_sec : Int
  tv_nsec : Int
  deriving DecidableEq, Repr

/-- The exact nanosecond count a `Timespec` denotes (specification view,
used only to state theorems; the code never computes this directly). -/
def Timespec.totalNs (t : Timespec) : Int := t.tv_sec * 1000000000 + t.tv_nsec

/-- `timespec_diff_ns` from the source: difference of two timespecs in
nanoseconds, with a guard that returns `LONG_MAX` when the addition
`diff_ns + diff_s * 1000000000L` would overflow a positive `long`.
C signed arithmetic is modelled by two's-complement truncation. -/
def timespec_diff_ns (a b : Timespec) : Int :=
  let diff_s := wrap64 (a.tv_sec - b.tv_sec)
  let diff_ns := wrap64 (a.tv_nsec - b.tv_nsec)
  if diff_ns > 0 ∧ (LONG_MAX - diff_ns).tdiv 1000000000 ≤ diff_s then
    LONG_MAX
  else
    wrap64 (diff_ns + diff_s * 1000000000)

/-! ## sscanf conversions

The dispatcher parses words with `sscanf`.  The conversions below were
validated against glibc (see the module comment).  All operate on
`List Char`. -/

/-- C `isspace` in the POSIX locale. -/
def isSpaceC (c : Char) : Bool :=
  c = ' ' ∨ c = '\t' ∨ c = '\n' ∨ c = '\x0b' ∨ c = '\x0c' ∨ c = '\r'

/-- Decimal digit test. -/
def isDigitC (c : Char) : Bool := '0' ≤ c ∧ c ≤ '9'

/-- Hexadecimal digit test (both cases, as accepted by `%x`). -/
def isHexC (c : Char) : Bool :=
  ('0' ≤ c ∧ c ≤ '9') ∨ ('a' ≤ c ∧ c ≤ 'f') ∨ ('A' ≤ c ∧ c ≤ 'F')

/-- Value of a hexadecimal digit. -/
def hexVal (c : Char) : Nat :=
  if '0' ≤ c ∧ c ≤ '9' then c.toNat - '0'.toNat
  else if 'a' ≤ c ∧ c ≤ 'f' then c.toNat - 'a'.toNat + 10
  else if 'A' ≤ c ∧ c ≤ 'F' then c.toNat - 'A'.toNat + 10
  else 0

/-- Left-to-right accumulation of a digit run in base `base`
(`strtol`-style), with `dig?` selecting and valuing digits. -/
def scanRunAux (base : Nat) (dig? : Char → Bool) (val : Char → Nat) :
    Nat → List Char → Nat × List Char
  | acc, [] => (acc, [])
  | acc, c :: cs =>
    if dig? c then scanRunAux base dig? val (acc * base + val c) cs
    else (acc, c :: cs)

/-- Greedy run of decimal digits; `none` when the list does not start
with a digit.  Returns the value and the rest. -/
def scanDecRun (cs : List Char) : Option (Nat × List Char) :=
  match cs with
  | [] => none
  | c :: _ =>
    if isDigitC c then
      some (scanRunAux 10 isDigitC (fun d => d.toNat - '0'.toNat) 0 cs)
    else none

/-- Greedy run of hexadecimal digits. -/
def scanHexRun (cs : List Char) : Option (Nat × List Char) :=
  match cs with
  | [] => none
  | c :: _ =>
    if isHexC c then some (scanRunAux 16 isHexC hexVal 0 cs)
    else none

/-- Skip C whitespace, as the numeric conversions do before the subject
sequence. -/
def skipWs (cs : List Char) : List Char := cs.dropWhile isSpaceC

/-- Saturation of a signed 64-bit `strtol` accumulator (glibc parses the
full digit run and clamps at the bounds). -/
def sat64 (neg : Bool) (m : Nat) : Int :=
  if neg then (if (m : Int) > 2 ^ 63 then -(2 ^ 63) else -(m : Int))
  else (if (m : Int) > 2 ^ 63 - 1 then 2 ^ 63 - 1 else (m : Int))

/-- Conversion of a sign/magnitude pair to the 32-bit unsigned
destination of `%u`/`%x`: the 64-bit `strtoull` accumulator saturates,
a leading minus negates in unsigned arithmetic, and the store truncates
to 32 bits. -/
def uconv32 (neg : Bool) (m : Nat) : Nat :=
  let v64 := if 2 ^ 64 - 1 < m then 2 ^ 64 - 1
             else if neg then (2 ^ 64 - m) % 2 ^ 64 else m
  v64 % 2 ^ 32

/-- `%d`: skip whitespace, optional sign, decimal run; saturate the
64-bit accumulator and truncate to a 32-bit `int`. -/
def scan_d (cs : List Char) : Option Int :=
  match skipWs cs with
  | '-' :: rest => (scanDecRun rest).map fun p => wrap32 (sat64 true p.1)
  | '+' :: rest => (scanDecRun rest).map fun p => wrap32 (sat64 false p.1)
  | rest => (scanDecRun rest).map fun p => wrap32 (sat64 false p.1)

/-- `%u`: like `%d` but the destination is a 32-bit `unsigned`; a
leading minus negates in unsigned arithmetic (glibc `strtoull`). -/
def scan_u (cs : List Char) : Option Nat :=
  match skipWs cs with
  | '-' :: rest => (scanDecRun rest).map fun p => uconv32 true p.1
  | '+' :: rest => (scanDecRun rest).map fun p => uconv32 false p.1
  | rest => (scanDecRun rest).map fun p => uconv32 false p.1

/-- `sscanf(word, "@%d", &newnotify) == 1`: the literal `@` matches the
first character exactly (no whitespace skip before a literal), then
`%d` converts. -/
def scanAt (w : String) : Option Int :=
  match w.toList with
  | '@' :: rest => scan_d rest
  | _ => none

/-- One `%02x` field, value discarded (the dispatcher only uses the
conversion count).  Validated against glibc: whitespace is skipped, a
sign followed by a hex digit is accepted within the two-character
width, and `0x`/`0X` alone within the width converts as the value `0`.
Returns the unconsumed rest on success. -/
def scanHex02 (cs : List Char) : Option (List Char) :=
  match skipWs cs with
  | c1 :: c2 :: rest =>
    if c1 = '0' ∧ (c2 = 'x' ∨ c2 = 'X') then some rest
    else if isHexC c1 ∧ isHexC c2 then some rest
    else if isHexC c1 then some (c2 :: rest)
    else if (c1 = '-' ∨ c1 = '+') ∧ isHexC c2 then some rest
    else none
  | [c1] => if isHexC c1 then some [] else none
  | [] => none

/-- `sscanf(word, "%02x%02x%02x", &r, &g, &b)`: the number of fields
assigned (0 to 3); trailing input after the last field is ignored. -/
def scan3hexCount (w : String) : Nat :=
  match scanHex02 w.toList with
  | none => 0
  | some r1 =>
    match scanHex02 r1 with
    | none => 1
    | some r2 =>
      match scanHex02 r2 with
      | none => 2
      | some _ => 3

/-- `sscanf(keyname, "#%u", &keycode)`: literal `#`, then `%u`.  (For
the bare word `#`, the real `sscanf` returns `EOF` and leaves the
destination uninitialized -- undefined behavior in the source; it is
modelled as a failed match.) -/
def scanHashDec (cs : List Char) : Option Nat :=
  match cs with
  | '#' :: rest => scan_u rest
  | _ => none

/-- `%x` with unbounded width: skip whitespace, optional sign, optional
`0x`/`0X` prefix, hexadecimal run; saturate and truncate to 32 bits. -/
def scanXBody (cs : List Char) : Option Nat :=
  let core : Bool → List Char → Option Nat := fun neg cs =>
    match cs with
    | '0' :: 'x' :: rest =>
      match scanHexRun rest with
      | some (m, _) => some (uconv32 neg m)
      | none => some (uconv32 neg 0)
    | '0' :: 'X' :: rest =>
      match scanHexRun rest with
      | some (m, _) => some (uconv32 neg m)
      | none => some (uconv32 neg 0)
    | rest => (scanHexRun rest).map fun p => uconv32 neg p.1
  match skipWs cs with
  | '-' :: rest => core true rest
  | '+' :: rest => core false rest
  | rest => core false rest

/-- `sscanf(keyname, "#x%x", &keycode)`: literals `#` and `x`, then
`%x`. -/
def scanHashHex (cs : List Char) : Option Nat :=
  match cs with
  | '#' :: 'x' :: rest => scanXBody rest
  | _ => none

/-- `sscanf(word + position, "%10[^:,]%n", keyname, &field)`: up to ten
characters that are neither `:` nor `,`; fails on zero characters. -/
def scanKeyname (cs : List Char) : List Char :=
  (cs.takeWhile (fun c => ¬(c = ':' ∨ c = ','))).take 10

/-! ## Command vocabulary -/

/-- The `cmd` enumeration (`NONE` plus the 39 verbs of `cmd_strings`,
with the C enum spelling). -/
inductive Cmd
  | NONE
  | DELAY | MODE | SWITCH | LAYOUT | ACCEL | SCROLLSPEED
  | NOTIFYON | NOTIFYOFF | FPS | DITHER
  | HWLOAD | HWSAVE | FWUPDATE | POLLRATE
  | ACTIVE | IDLE
  | ERASE | ERASEPROFILE | NAME | PROFILENAME | ID | PROFILEID
  | RGB | HWANIM | IOFF | ION | IAUTO
  | BIND | UNBIND | REBIND | MACRO
  | DPI | DPISEL | LIFT | SNAP
  | NOTIFY | INOTIFY | GET
  | RESET
  deriving DecidableEq, Repr

/-- `cmd_strings`, in source order, paired with the verbs they name. -/
def cmd_strings : List (String × Cmd) :=
  [("delay", .DELAY), ("mode", .MODE), ("switch", .SWITCH),
   ("layout", .LAYOUT), ("accel", .ACCEL), ("scrollspeed", .SCROLLSPEED),
   ("notifyon", .NOTIFYON), ("notifyoff", .NOTIFYOFF), ("fps", .FPS),
   ("dither", .DITHER),
   ("hwload", .HWLOAD), ("hwsave", .HWSAVE), ("fwupdate", .FWUPDATE),
   ("pollrate", .POLLRATE),
   ("active", .ACTIVE), ("idle", .IDLE),
   ("erase", .ERASE), ("eraseprofile", .ERASEPROFILE), ("name", .NAME),
   ("profilename", .PROFILENAME), ("id", .ID), ("profileid", .PROFILEID),
   ("rgb", .RGB), ("hwanim", .HWANIM), ("ioff", .IOFF), ("ion", .ION),
   ("iauto", .IAUTO),
   ("bind", .BIND), ("unbind", .UNBIND), ("rebind", .REBIND),
   ("macro", .MACRO),
   ("dpi", .DPI), ("dpisel", .DPISEL), ("lift", .LIFT), ("snap", .SNAP),
   ("notify", .NOTIFY), ("inotify", .INOTIFY), ("get", .GET),
   ("reset", .RESET)]

/-- The `strcmp` scan over `cmd_strings`. -/
def matchCmd (w : String) : Option Cmd :=
  (cmd_strings.find? (fun p => p.1 = w)).map (fun p => p.2)

/-- Linux build: `LAYOUT`, `ACCEL` and `SCROLLSPEED` are demoted to
`NONE` on recognition (`#ifndef OS_MAC`). -/
def demoteLinux (c : Cmd) : Cmd :=
  if c = .LAYOUT ∨ c = .ACCEL ∨ c = .SCROLLSPEED then .NONE else c

/-- The seven verbs that are actions in and of themselves (source lines
104-107); all other verbs consume the next word as a parameter. -/
def isAction (c : Cmd) : Bool :=
  c = .SWITCH ∨ c = .HWLOAD ∨ c = .HWSAVE ∨ c = .ACTIVE ∨ c = .IDLE ∨
  c = .ERASE ∨ c = .ERASEPROFILE

/-- The literal poll-rate strings, mapped to the `pollrate_t` enum
(`POLLRATE_8MS` lowest through `POLLRATE_01MS` highest). -/
def pollrateOf (w : String) : Option Nat :=
  if w = "8" then some 0
  else if w = "4" then some 1
  else if w = "2" then some 2
  else if w = "1" then some 3
  else if w = "0.5" then some 4
  else if w = "0.25" then some 5
  else if w = "0.1" then some 6
  else none

/-! ## Data model -/

/-- The slice of a `usbmode` the dispatcher touches: the light's
`forceupdate` flag and the `triggered` flags of the binding's macros. -/
structure UsbMode where
  forceupdate : Bool
  macros : List Bool
  deriving DecidableEq, Repr

/-- A `usbprofile`: `MODE_COUNT` modes and the current mode (modelled as
an index into the mode array, standing for the source's pointer). -/
structure UsbProfile where
  currentmode : Nat
  modes : List UsbMode
  deriving DecidableEq, Repr

/-- The slice of a `usbdevice` the dispatcher reads or writes.  Feature
bits of `kb->features` are individual flags; `isMouse`/`isFullrange`
model the `IS_MOUSE_DEV`/`IS_FULLRANGE` capability predicates. -/
structure KB where
  featBind : Bool
  featNotify : Bool
  featAdjrate : Bool
  featAnsi : Bool
  featIso : Bool
  isMouse : Bool
  isFullrange : Bool
  active : Bool
  needsFwUpdate : Bool
  usbdelay : Nat
  dither : Nat
  maxpollrate : Nat
  keymap : List (Option String)
  last_rgb : Timespec
  profile : UsbProfile
  deriving DecidableEq, Repr

/-- Platform constants defined by collaborating headers (`devnode.h`,
`keymap.h`, `profile.h`); the dispatcher treats them as opaque
positive bounds. -/
structure Consts where
  OUTFIFO_MAX : Int
  MODE_COUNT : Int
  N_KEYS_EXTENDED : Nat
  deriving DecidableEq, Repr

/-- One trace event per call the dispatcher makes into a collaborator.
Events record the arguments the callee receives; `doIo` and
`updatergbEv` also record the `usb_delay` in force at call time (it is
part of the device handle passed to the callee). -/
inductive Ev
  | getEv (ch : Int) (w : String)
  | resetEv (ch : Int) (w : String)
  | mknotify (n : Int)
  | rmnotify (n : Int)
  | activeEv (ch : Int)
  | idleEv (ch : Int)
  | tryreset
  | doIo (c : Cmd) (ch : Int) (delay : Nat)
  | updatergbEv (force : Nat) (delay : Nat)
  | updatedpiEv (force : Nat)
  | fwupdateEv (ch : Int) (w : String)
  | pollrateEv (rate : Nat)
  | eraseprofileEv (ch : Int)
  | doCmd (c : Cmd) (ch : Int) (key : Int) (arg : String)
  | rgbEv (ch : Int) (key : Int) (w : String)
  | macroClear (ch : Int)
  | doMacro (c : Cmd) (ch : Int) (l : String) (r : String)
  | setmodeindexEv (i : Nat)
  | sleepEv (ns : Int)
  deriving DecidableEq, Repr

/-- The oracle for everything outside the dispatcher: call results and
the values external calls leave behind, indexed by the dispatcher's
call counter (`tick`). -/
structure Env where
  /-- Failures of a harness-wrapped call before it first succeeds. -/
  actFail : Nat → Nat
  /-- Whether the j-th `usb_tryreset` inside the harness at a tick
  succeeds (the source treats zero as success). -/
  resetOk : Nat → Nat → Bool
  /-- Whether `vt->fwupdate` returns non-zero. -/
  fwFail : Nat → Bool
  /-- The `kb->active` flag as the `vt->active`/`vt->idle` call leaves
  it. -/
  leavesActive : Nat → Bool
  /-- The profile `vt->eraseprofile` installs in the device. -/
  newProfile : Nat → UsbProfile
  /-- The `CLOCK_MONOTONIC` reading taken in the post-line flush. -/
  now : Timespec

/-- The dispatcher's per-line state: the device, the local
`mode`/`notifynumber`/`command` variables of `readcmd`, the oracle
counter and the call trace. -/
structure St where
  kb : KB
  modeIdx : Nat
  notifynumber : Int
  command : Cmd
  tick : Nat
  trace : List Ev
  deriving Repr

/-- Append one trace event. -/
def emit (st : St) (e : Ev) : St := {st with trace := st.trace ++ [e]}

/-- `TRY_WITH_RESET(action)`: run the action; while it fails, reset,
and abort with return value 1 if a reset fails.  `n` counts the
remaining failures of the action, `j` the resets performed so far.
Returns whether the line is aborted, plus the attempt/reset events. -/
def tryLoop (ev : Ev) (resetOk : Nat → Bool) : Nat → Nat → Bool × List Ev
  | 0, _ => (false, [ev])
  | n + 1, j =>
    if resetOk j then
      let r := tryLoop ev resetOk n (j + 1)
      (r.1, ev :: Ev.tryreset :: r.2)
    else (true, [ev, Ev.tryreset])

/-- Run one `TRY_WITH_RESET` harness at the current tick.  The first
component is true when the harness executed `return 1`. -/
def runHarness (env : Env) (st : St) (ev : Ev) : Bool × St :=
  let r := tryLoop ev (env.resetOk st.tick) (env.actFail st.tick) 0
  (r.1, {st with trace := st.trace ++ r.2, tick := st.tick + 1})

/-- Replace the mode at one index (source: writes through a mode
pointer). -/
def modifyMode (f : UsbMode → UsbMode) : List UsbMode → Nat → List UsbMode
  | [], _ => []
  | m :: ms, 0 => f m :: ms
  | m :: ms, i + 1 => m :: modifyMode f ms i

/-! ## Dispatcher -/

/-- Keymap-name fallback of a key selector (source lines 349-355):
dispatch on the first keymap index whose name equals the key name. -/
def selectorName (C : Consts) (kb : KB) (c : Cmd) (ch : Int)
    (kn : List Char) (right : String) : List Ev :=
  match (List.range C.N_KEYS_EXTENDED).find?
      (fun i => kb.keymap.get? i = some (some kn.asString)) with
  | some i => [.doCmd c ch (i : Int) right]
  | none => []

/-- `#x<hex>` alternative of a key selector (second disjunct of source
line 344-345), falling back to the keymap-name scan. -/
def selectorHex (C : Consts) (kb : KB) (c : Cmd) (ch : Int)
    (kn : List Char) (right : String) : List Ev :=
  match scanHashHex kn with
  | some k =>
    if k < C.N_KEYS_EXTENDED then [.doCmd c ch (k : Int) right]
    else selectorName C kb c ch kn right
  | none => selectorName C kb c ch kn right

/-- Events produced for one key selector of a key list (source lines
339-356): `all`, `#<dec>`, `#x<hex>`, or a keymap name (first match
only). -/
def selectorEvents (C : Consts) (kb : KB) (c : Cmd) (ch : Int)
    (kn : List Char) (right : String) : List Ev :=
  if kn.asString = "all" then
    (List.range C.N_KEYS_EXTENDED).map fun i => .doCmd c ch (i : Int) right
  else
    match scanHashDec kn with
    | some k =>
      if k < C.N_KEYS_EXTENDED then [.doCmd c ch (k : Int) right]
      else selectorHex C kb c ch kn right
    | none => selectorHex C kb c ch kn right

/-- The key-list scan loop (source lines 336-359): repeatedly take a
`%10[^:,]` key name starting at `p`, dispatch it, advance past it and
an optional comma, while `p < left` and the scanset matches. -/
def keyLoop (C : Consts) (kb : KB) (c : Cmd) (ch : Int) (cs : List Char)
    (left : Nat) (right : String) (p : Nat) : List Ev :=
  if h : p < left then
    let kn := scanKeyname (cs.drop p)
    if hk : kn = [] then []
    else
      selectorEvents C kb c ch kn right ++
      keyLoop C kb c ch cs left right
        (if cs.get? (p + kn.length) = some ',' then p + kn.length + 1
         else p + kn.length)
  else []
termination_by left - p
decreasing_by
  simp_wf
  have hl : 0 < (scanKeyname (cs.drop p)).length := List.length_pos.mpr hk
  split <;> omega

/-- The colon-split family (source lines 321-359): split the word at
the first `:`; ignore an empty left side; `MACRO`/`DPI` get the two
halves, everything else runs the key-list scan on the left side. -/
def colonSplit (C : Consts) (st : St) (w : String) : St :=
  let cs := w.toList
  let left := (cs.takeWhile (fun c => c ≠ ':')).length
  if left = 0 then st
  else
    let right := (cs.drop (left + 1)).asString
    if st.command = .MACRO ∨ st.command = .DPI then
      emit st (.doMacro st.command st.notifynumber (cs.take left).asString right)
    else
      {st with trace :=
        st.trace ++ keyLoop C st.kb st.command st.notifynumber cs left right 0}

/-- The switch over commands available even when the keyboard is idle
(source lines 132-216, Linux build: no `ACCEL`/`SCROLLSPEED` cases).
`some` means the word was consumed (`continue`); `none` falls through
to the activation gate. -/
def alwaysSwitch (C : Consts) (st : St) (w : String) : Option St :=
  match st.command with
  | .NOTIFYON =>
    some (match scan_d w.toList with
      | some n => emit st (.mknotify n)
      | none => st)
  | .NOTIFYOFF =>
    some (match scan_d w.toList with
      | some n => if n ≠ 0 then emit st (.rmnotify n) else st
      | none => st)
  | .GET => some (emit st (.getEv st.notifynumber w))
  | .LAYOUT =>
    -- unreachable on Linux (demoted to NONE); kept faithful to source
    some (if w = "ansi" then
            {st with kb := {st.kb with featAnsi := true, featIso := false}}
          else if w = "iso" then
            {st with kb := {st.kb with featAnsi := false, featIso := true}}
          else st)
  | .MODE =>
    some (match scan_d w.toList with
      | some n =>
        if 0 < n ∧ n ≤ C.MODE_COUNT then {st with modeIdx := (n - 1).toNat}
        else st
      | none => st)
  | .FPS =>
    some (match scan_u w.toList with
      | some framerate =>
        if 0 < framerate then
          let per_frame : Nat :=
            if st.kb.isMouse then 2 else if st.kb.isFullrange then 14 else 5
          let delay := 1000 / framerate / per_frame
          let delay := if delay < 2 then 2 else if delay > 10 then 10 else delay
          {st with kb := {st.kb with usbdelay := delay}}
        else st
      | none => st)
  | .DITHER =>
    some (match scan_u w.toList with
      | some d =>
        if d ≤ 1 then
          let p := st.kb.profile
          let ms := modifyMode (fun m => {m with forceupdate := true})
                      p.modes p.currentmode
          let ms := modifyMode (fun m => {m with forceupdate := true})
                      ms st.modeIdx
          {st with kb := {st.kb with dither := d, profile := {p with modes := ms}}}
        else st
      | none => st)
  | .DELAY => some st
  | .RESET => some (emit st (.resetEv st.notifynumber w))
  | _ => none

/-- Outcome of the active-only switch: consume the word, abort the
line, or fall through to the colon split. -/
inductive StepOut
  | cont (st : St)
  | abort (st : St)
  | fall (st : St)

/-- The switch over commands only available when the keyboard is active
(source lines 225-320). -/
def activeSwitch (C : Consts) (env : Env) (st : St) (w : String) : StepOut :=
  match st.command with
  | .IDLE =>
    let t := st.tick
    let q := runHarness env st (.idleEv st.notifynumber)
    if q.1 then .abort q.2
    else .cont {q.2 with kb := {q.2.kb with active := env.leavesActive t}}
  | .SWITCH =>
    if st.kb.profile.currentmode ≠ st.modeIdx then
      let p := st.kb.profile
      let ms := modifyMode (fun m => {m with macros := m.macros.map (fun _ => false)})
                  p.modes p.currentmode
      .cont (emit {st with kb := {st.kb with
                     profile := {p with currentmode := st.modeIdx, modes := ms}}}
               (.setmodeindexEv st.modeIdx))
    else .cont st
  | .HWLOAD =>
    hwHandler env st .HWLOAD
  | .HWSAVE =>
    hwHandler env st .HWSAVE
  | .FWUPDATE =>
    let t := st.tick
    let st' := {emit st (.fwupdateEv st.notifynumber w) with tick := t + 1}
    if env.fwFail t then .abort st' else .cont st'
  | .POLLRATE =>
    if st.kb.featAdjrate then
      match pollrateOf w with
      | some rate =>
        if st.kb.maxpollrate < rate then .cont st  -- ckb_err, no vtable call
        else
          let q := runHarness env st (.pollrateEv rate)
          if q.1 then .abort q.2 else .cont q.2
      | none => .cont st
    else .cont st
  | .ERASEPROFILE =>
    let t := st.tick
    let st' := {emit st (.eraseprofileEv st.notifynumber) with tick := t + 1}
    let p := env.newProfile t
    .cont {st' with kb := {st'.kb with profile := p}, modeIdx := p.currentmode}
  | .ERASE => .cont (emit st (.doCmd .ERASE st.notifynumber 0 w))
  | .NAME => .cont (emit st (.doCmd .NAME st.notifynumber 0 w))
  | .IOFF => .cont (emit st (.doCmd .IOFF st.notifynumber 0 w))
  | .ION => .cont (emit st (.doCmd .ION st.notifynumber 0 w))
  | .IAUTO => .cont (emit st (.doCmd .IAUTO st.notifynumber 0 w))
  | .INOTIFY => .cont (emit st (.doCmd .INOTIFY st.notifynumber 0 w))
  | .PROFILENAME => .cont (emit st (.doCmd .PROFILENAME st.notifynumber 0 w))
  | .ID => .cont (emit st (.doCmd .ID st.notifynumber 0 w))
  | .PROFILEID => .cont (emit st (.doCmd .PROFILEID st.notifynumber 0 w))
  | .DPISEL => .cont (emit st (.doCmd .DPISEL st.notifynumber 0 w))
  | .LIFT => .cont (emit st (.doCmd .LIFT st.notifynumber 0 w))
  | .SNAP => .cont (emit st (.doCmd .SNAP st.notifynumber 0 w))
  | .RGB =>
    if scan3hexCount w = 3 then
      .cont {st with trace := st.trace ++
        (List.range C.N_KEYS_EXTENDED).map fun i => Ev.rgbEv (-1) (i : Int) w}
    else .fall st
  | .MACRO =>
    if w = "clear" then .cont (emit st (.macroClear st.notifynumber))
    else .fall st
  | _ => .fall st
where
  /-- `HWLOAD`/`HWSAVE` (source lines 242-253): raise `usb_delay` to at
  least 10, harness the I/O and a forced RGB update, restore the saved
  delay.  On harness abort the saved delay is *not* restored. -/
  hwHandler (env : Env) (st : St) (c : Cmd) : StepOut :=
    let delay := st.kb.usbdelay
    let st1 := if delay < 10 then {st with kb := {st.kb with usbdelay := 10}} else st
    let q1 := runHarness env st1 (.doIo c st1.notifynumber st1.kb.usbdelay)
    if q1.1 then .abort q1.2
    else
      let q2 := runHarness env q1.2 (.updatergbEv 1 q1.2.kb.usbdelay)
      if q2.1 then .abort q2.2
      else .cont {q2.2 with kb := {q2.2.kb with usbdelay := delay}}

/-- The gated dispatch of one word (source lines 121-359): reject
gates, firmware gate, idle-safe switch, activation gate, active-only
switch, colon split. -/
def stepGates (C : Consts) (env : Env) (st : St) (w : String) : Bool × St :=
  -- Reject unrecognized commands / missing features
  if st.command = .NONE
     ∨ (¬st.kb.featBind ∧ (st.command = .BIND ∨ st.command = .UNBIND
           ∨ st.command = .REBIND ∨ st.command = .MACRO ∨ st.command = .DELAY))
     ∨ (¬st.kb.featNotify ∧ st.command = .NOTIFY) then
    (false, st)
  -- Reject anything not related to fwupdate if device has a bricked FW
  else if st.kb.needsFwUpdate ∧ st.command ≠ .FWUPDATE
          ∧ st.command ≠ .NOTIFYON ∧ st.command ≠ .NOTIFYOFF
          ∧ st.command ≠ .RESET then
    (false, st)
  else
    match alwaysSwitch C st w with
    | some st' => (false, st')
    | none =>
      -- If a keyboard is inactive, it must be activated first
      if ¬st.kb.active then
        if st.command = .ACTIVE then
          let t := st.tick
          let q := runHarness env st (.activeEv st.notifynumber)
          if q.1 then (true, q.2)
          else
            (false, {q.2 with kb := {q.2.kb with active := env.leavesActive t}})
        else (false, st)
      else
        match activeSwitch C env st w with
        | .cont st' => (false, st')
        | .abort st' => (true, st')
        | .fall st' => (false, colonSplit C st' w)

/-- Everything after the command-match loop for one word, starting with
the channel selector (source line 115). -/
def stepRest (C : Consts) (env : Env) (st : St) (w : String) : Bool × St :=
  -- Set current notification node when given @number
  match scanAt w with
  | some n =>
    if n < C.OUTFIFO_MAX then (false, {st with notifynumber := n})
    else stepGates C env st w
  | none => stepGates C env st w

/-- Processing of one word of the line: the command-match loop (source
lines 95-111, with the Linux demotion and the action-verb test), then
`stepRest` unless an argument-taking verb was just recognized. -/
def stepWord (C : Consts) (env : Env) (st : St) (w : String) : Bool × St :=
  match matchCmd w with
  | some c0 =>
    let c := demoteLinux c0
    if isAction c then stepRest C env {st with command := c} w
    else (false, {st with command := c})
  | none => stepRest C env st w

/-- The `strtok_r` word loop, stopping early when a handler returns 1. -/
def readWords (C : Consts) (env : Env) : St → List String → Bool × St
  | st, [] => (false, st)
  | st, w :: ws =>
    let q := stepWord C env st w
    if q.1 then (true, q.2) else readWords C env q.2 ws

/-- The harnessed flush calls (source lines 385-386): `updatergb(0)`
then `updatedpi(0)`, each through `TRY_WITH_RESET`. -/
def flushCalls (env : Env) (st : St) : Bool × St :=
  let q1 := runHarness env st (.updatergbEv 0 st.kb.usbdelay)
  if q1.1 then (true, q1.2)
  else
    let q2 := runHarness env q1.2 (.updatedpiEv 0)
    (q2.1, q2.2)

/-- The RGB rate limiter (source lines 364-384): when the last command
was `RGB`, measure the monotonic time since `last_rgb`, sleep out the
remainder of the 60.5 Hz window when inside it, and store the
(possibly advanced) `now` back into `last_rgb`. -/
def rateLimit (env : Env) (st : St) : St :=
  if st.command = .RGB then
    let now := env.now
    let diff := timespec_diff_ns now st.kb.last_rgb
    if 0 < diff ∧ diff < HERTZ_LIM then
      let sleep_ns := HERTZ_LIM - diff
      let now2 : Timespec := {now with tv_nsec := now.tv_nsec + sleep_ns}
      {st with trace := st.trace ++ [.sleepEv sleep_ns],
               kb := {st.kb with last_rgb := now2}}
    else {st with kb := {st.kb with last_rgb := now}}
  else st

/-- The post-line flush (source lines 363-387, release build): RGB rate
limiter when the last command was `RGB`, then the harnessed
`updatergb(0)`/`updatedpi(0)`; skipped entirely when the firmware is
bricked. -/
def flushLine (env : Env) (st : St) : Bool × St :=
  if st.kb.needsFwUpdate then (false, st)
  else flushCalls env (rateLimit env st)

/-- The initial per-line state: `mode = profile->currentmode`,
`notifynumber = 0`, `command = NONE`, empty trace. -/
def initSt (kb : KB) : St :=
  { kb := kb, modeIdx := kb.profile.currentmode, notifynumber := 0,
    command := .NONE, tick := 0, trace := [] }

/-- `readcmd`: process a tokenized line, then flush.  Returns the C
return value (0 = line processed, 1 = device lost) and the final
state, whose trace lists every external call made. -/
def readcmd (C : Consts) (env : Env) (kb : KB) (ws : List String) : Nat × St :=
  let q := readWords C env (initSt kb) ws
  if q.1 then (1, q.2)
  else
    let q2 := flushLine env q.2
    if q2.1 then (1, q2.2) else (0, q2.2)

/-- The `strtok_r(line, " ", ...)` tokenizer: ASCII space is the sole
delimiter and empty tokens are skipped. -/
def tokenize (line : String) : List String :=
  (line.splitOn " ").filter (fun w => w ≠ "")

/-! ## Concrete fixtures used by witnesses and counterexamples -/

/-- Plausible platform constants (`OUTFIFO_MAX = 10`, `MODE_COUNT = 6`,
a 3-key keymap to keep broadcasts small). -/
def Cfix : Consts := ⟨10, 6, 3⟩

/-- A mode with two triggered macros. -/
def modeFix : UsbMode := ⟨false, [true, true]⟩

/-- A six-mode profile currently on mode 0. -/
def profFix : UsbProfile := ⟨0, [modeFix, modeFix, modeFix, modeFix, modeFix, modeFix]⟩

/-- An active, healthy full-featured keyboard. -/
def kbFix : KB :=
  { featBind := true, featNotify := true, featAdjrate := true,
    featAnsi := true, featIso := false, isMouse := false, isFullrange := false,
    active := true, needsFwUpdate := false, usbdelay := 5, dither := 0,
    maxpollrate := 3, keymap := [some "a", some "b", some "esc"],
    last_rgb := ⟨100, 0⟩, profile := profFix }

/-- A benign oracle: every call succeeds, `vt->active` leaves the
device active, the clock reads 5 ms past `kbFix`'s last RGB flush. -/
def envFix : Env :=
  { actFail := fun _ => 0, resetOk := fun _ _ => true, fwFail := fun _ => false,
    leavesActive := fun _ => true, newProfile := fun _ => profFix,
    now := ⟨100, 5000000⟩ }

/-! ## Claim C8: saturation of `timespec_diff_ns` -/

/-- C truncating division agrees with Euclidean division on
non-negative operands. -/
theorem tdiv_eq_ediv_nonneg (a b : Int) (ha : 0 ≤ a) (hb : 0 ≤ b) :
    a.tdiv b = a / b := by
  obtain ⟨m, rfl⟩ := Int.eq_ofNat_of_zero_le ha
  obtain ⟨n, rfl⟩ := Int.eq_ofNat_of_zero_le hb
  rw [← Int.ofNat_tdiv, Int.ofNat_ediv]

/-- `wrap64` is the identity on the representable range. -/
theorem wrap64_eq_self (x : Int) (h1 : -(2 ^ 63) ≤ x) (h2 : x < 2 ^ 63) :
    wrap64 x = x := by
  unfold wrap64
  omega

/-- Claim C8, as stated, is false: a pair of timespecs whose true
difference exceeds `LONG_MAX` but whose nanosecond components are equal
skips the overflow guard, and the sum wraps to a large negative value
instead of saturating at `LONG_MAX` (so the claimed universal
saturation does not hold). -/
theorem C8_counterexample :
    (Timespec.mk 10000000000 0).totalNs - (Timespec.mk 0 0).totalNs > LONG_MAX
    ∧ timespec_diff_ns ⟨10000000000, 0⟩ ⟨0, 0⟩ ≠ LONG_MAX
    ∧ timespec_diff_ns ⟨10000000000, 0⟩ ⟨0, 0⟩ = -8446744073709551616 := by
  refine ⟨by decide, by decide, by decide⟩

/-- Claim C8 amended: the saturation holds for every pair whose
nanosecond component difference is positive (`diff_ns > 0`, the case
the source's guard covers) and whose fields are in the ranges produced
by the monotonic clock and the flush (seconds bounded, nanoseconds
non-negative and below `2^31`): a true difference above `LONG_MAX`
yields exactly `LONG_MAX`, which the rate-limiter comparison
`diff < HERTZ_LIM` then treats as out-of-window. -/
theorem C8_saturates (a b : Timespec)
    (ha1 : 0 ≤ a.tv_nsec) (ha2 : a.tv_nsec < 2 ^ 31)
    (hb1 : 0 ≤ b.tv_nsec) (hb2 : b.tv_nsec < 2 ^ 31)
    (has : a.tv_sec.natAbs ≤ 2 ^ 40) (hbs : b.tv_sec.natAbs ≤ 2 ^ 40)
    (hD : b.tv_nsec < a.tv_nsec)
    (hT : a.totalNs - b.totalNs > LONG_MAX) :
    timespec_diff_ns a b = LONG_MAX ∧ ¬(timespec_diff_ns a b < HERTZ_LIM) := by
  have hsa : a.tv_sec ≤ 2 ^ 40 ∧ -(2 ^ 40) ≤ a.tv_sec := by omega
  have hsb : b.tv_sec ≤ 2 ^ 40 ∧ -(2 ^ 40) ≤ b.tv_sec := by omega
  have hmain : timespec_diff_ns a b = LONG_MAX := by
    unfold timespec_diff_ns
    have hws : wrap64 (a.tv_sec - b.tv_sec) = a.tv_sec - b.tv_sec :=
      wrap64_eq_self _ (by omega) (by omega)
    have hwn : wrap64 (a.tv_nsec - b.tv_nsec) = a.tv_nsec - b.tv_nsec :=
      wrap64_eq_self _ (by omega) (by omega)
    rw [hws, hwn]
    have htd : (LONG_MAX - (a.tv_nsec - b.tv_nsec)).tdiv 1000000000
        = (LONG_MAX - (a.tv_nsec - b.tv_nsec)) / 1000000000 := by
      apply tdiv_eq_ediv_nonneg _ _ _ (by omega)
      unfold LONG_MAX
      omega
    rw [if_pos]
    refine ⟨by omega, ?_⟩
    rw [htd]
    unfold Timespec.totalNs at hT
    unfold LONG_MAX at *
    omega
  refine ⟨hmain, ?_⟩
  rw [hmain]
  decide

/-- Witness for `C8_saturates` at a concrete pair. -/
theorem C8_saturates_witness :
    timespec_diff_ns ⟨10000000000, 6⟩ ⟨0, 5⟩ = LONG_MAX
    ∧ ¬(timespec_diff_ns ⟨10000000000, 6⟩ ⟨0, 5⟩ < HERTZ_LIM) :=
  C8_saturates ⟨10000000000, 6⟩ ⟨0, 5⟩ (by decide) (by decide) (by decide)
    (by decide) (by decide) (by decide) (by decide) (by decide)

/-! ## Claim C1: the RGB broadcast condition -/

/-- A hexadecimal digit is not C whitespace. -/
theorem hex_ne_space {c : Char} (h : isHexC c = true) : isSpaceC c = false := by
  cases hs : isSpaceC c with
  | false => rfl
  | true =>
    exfalso
    unfold isSpaceC at hs
    simp only [decide_eq_true_eq] at hs
    rcases hs with hs | hs | hs | hs | hs | hs <;> subst hs <;>
      exact absurd h (by decide)

/-- A `%02x` field on two leading hexadecimal digits consumes exactly
both. -/
theorem scanHex02_cons_hex {c1 c2 : Char} (rest : List Char)
    (h1 : isHexC c1 = true) (h2 : isHexC c2 = true) :
    scanHex02 (c1 :: c2 :: rest) = some rest := by
  have hs1 : isSpaceC c1 = false := hex_ne_space h1
  have hnot : ¬(c1 = '0' ∧ (c2 = 'x' ∨ c2 = 'X')) := by
    rintro ⟨-, hx | hx⟩ <;> subst hx <;> exact absurd h2 (by decide)
  simp only [scanHex02, skipWs, List.dropWhile_cons, hs1, Bool.false_eq_true,
    if_false]
  rw [if_neg hnot, if_pos ⟨h1, h2⟩]

/-- Does a trace event denote a `vt->rgb` broadcast call? -/
def isRgbEv (e : Ev) : Bool :=
  match e with
  | .rgbEv _ _ _ => true
  | _ => false

/-- Every event a key-name selector emits is a `do_cmd` call of the
current verb. -/
theorem selectorName_shape (C : Consts) (kb : KB) (c : Cmd) (ch : Int)
    (kn : List Char) (right : String) :
    ∀ e ∈ selectorName C kb c ch kn right,
      ∃ ch2 k2 r2, e = Ev.doCmd c ch2 k2 r2 := by
  intro e he
  unfold selectorName at he
  split at he
  · simp only [List.mem_singleton] at he
    exact ⟨_, _, _, he⟩
  · simp at he

/-- Every event a `#x<hex>` selector emits is a `do_cmd` call. -/
theorem selectorHex_shape (C : Consts) (kb : KB) (c : Cmd) (ch : Int)
    (kn : List Char) (right : String) :
    ∀ e ∈ selectorHex C kb c ch kn right,
      ∃ ch2 k2 r2, e = Ev.doCmd c ch2 k2 r2 := by
  intro e he
  unfold selectorHex at he
  split at he
  · split at he
    · simp only [List.mem_singleton] at he
      exact ⟨_, _, _, he⟩
    · exact selectorName_shape C kb c ch kn right e he
  · exact selectorName_shape C kb c ch kn right e he

/-- Every event a key selector emits is a `do_cmd` call. -/
theorem selectorEvents_shape (C : Consts) (kb : KB) (c : Cmd) (ch : Int)
    (kn : List Char) (right : String) :
    ∀ e ∈ selectorEvents C kb c ch kn right,
      ∃ ch2 k2 r2, e = Ev.doCmd c ch2 k2 r2 := by
  intro e he
  unfold selectorEvents at he
  split at he
  · simp only [List.mem_map] at he
    obtain ⟨i, -, rfl⟩ := he
    exact ⟨_, _, _, rfl⟩
  · split at he
    · split at he
      · simp only [List.mem_singleton] at he
        exact ⟨_, _, _, he⟩
      · exact selectorHex_shape C kb c ch kn right e he
    · exact selectorHex_shape C kb c ch kn right e he

/-- Every event the key-list loop emits is a `do_cmd` call. -/
theorem keyLoop_shape (C : Consts) (kb : KB) (c : Cmd) (ch : Int)
    (cs : List Char) (left : Nat) (right : String) :
    ∀ p, ∀ e ∈ keyLoop C kb c ch cs left right p,
      ∃ ch2 k2 r2, e = Ev.doCmd c ch2 k2 r2 := by
  intro p
  induction p using keyLoop.induct C kb c ch cs left right with
  | case1 p hp kn hkn =>
    intro e he
    have hkn2 : scanKeyname (List.drop p cs) = [] := hkn
    rw [keyLoop] at he
    simp only [dif_pos hp, dif_pos hkn2] at he
    simp at he
  | case2 p hp kn hkn ih =>
    intro e he
    have hkn2 : ¬scanKeyname (List.drop p cs) = [] := hkn
    rw [keyLoop] at he
    simp only [dif_pos hp, dif_neg hkn2, List.mem_append] at he
    simp only [dite_eq_ite] at ih
    rcases he with he | he
    · exact selectorEvents_shape C kb c ch _ right e he
    · exact ih e he
  | case3 p hp =>
    intro e he
    rw [keyLoop] at he
    rw [dif_neg hp] at he
    simp at he

/-- Every event the colon-split family emits beyond the incoming trace
is a `do_cmd` or `do_macro` call; in particular no `vt->rgb`
broadcast calls are added. -/
theorem colonSplit_no_rgb (C : Consts) (st : St) (w : String)
    (hst : ∀ e ∈ st.trace, isRgbEv e = false) :
    ∀ e ∈ (colonSplit C st w).trace, isRgbEv e = false := by
  intro e he
  simp only [colonSplit] at he
  split at he
  · exact hst e he
  · split at he
    · simp only [emit, List.mem_append, List.mem_singleton] at he
      rcases he with he | he
      · exact hst e he
      · subst he; rfl
    · simp only [List.mem_append] at he
      rcases he with he | he
      · exact hst e he
      · obtain ⟨ch2, k2, r2, rfl⟩ := keyLoop_shape C st.kb st.command
          st.notifynumber w.toList _ _ 0 e he
        rfl

/-- Six hexadecimal digits scan as three full `%02x` fields. -/
theorem scan3hexCount_sixHex {a b c d e f : Char}
    (ha : isHexC a = true) (hb : isHexC b = true) (hc : isHexC c = true)
    (hd : isHexC d = true) (he : isHexC e = true) (hf : isHexC f = true) :
    scan3hexCount (String.mk [a, b, c, d, e, f]) = 3 := by
  have h0 : (String.mk [a, b, c, d, e, f]).toList = [a, b, c, d, e, f] := rfl
  have e1 : scanHex02 [a, b, c, d, e, f] = some [c, d, e, f] :=
    scanHex02_cons_hex _ ha hb
  have e2 : scanHex02 [c, d, e, f] = some [e, f] := scanHex02_cons_hex _ hc hd
  have e3 : scanHex02 [e, f] = some [] := scanHex02_cons_hex _ he hf
  simp only [scan3hexCount, h0, e1, e2, e3]

/-- Behavior of a two-word `rgb <arg>` line on an active, healthy
device: the `%02x%02x%02x` probe decides between the broadcast and the
colon-split fallthrough. -/
theorem readWords_rgb (C : Consts) (env : Env) (kb : KB) (w : String)
    (hact : kb.active = true) (hfw : kb.needsFwUpdate = false)
    (hm : matchCmd w = none) (hat : scanAt w = none) :
    readWords C env (initSt kb) ["rgb", w] =
      (false,
       if scan3hexCount w = 3 then
         {initSt kb with
            command := .RGB,
            trace := (List.range C.N_KEYS_EXTENDED).map
              fun i => Ev.rgbEv (-1) (i : Int) w}
       else colonSplit C {initSt kb with command := .RGB} w) := by
  have h1 : stepWord C env (initSt kb) "rgb"
      = (false, {initSt kb with command := .RGB}) := rfl
  have h2 : stepWord C env {initSt kb with command := .RGB} w
      = (false,
         if scan3hexCount w = 3 then
           {initSt kb with
              command := .RGB,
              trace := (List.range C.N_KEYS_EXTENDED).map
                fun i => Ev.rgbEv (-1) (i : Int) w}
         else colonSplit C {initSt kb with command := .RGB} w) := by
    simp only [stepWord, hm, stepRest, hat, stepGates]
    split
    · rename_i hcond
      exfalso
      simp only [initSt] at hcond
      rcases hcond with h | ⟨-, h | h | h | h | h⟩ | ⟨-, h⟩ <;> simp at h
    · split
      · rename_i hcond
        exfalso
        simp only [initSt] at hcond
        rw [hfw] at hcond
        simp at hcond
      · rw [show alwaysSwitch C {initSt kb with command := Cmd.RGB} w = none
            from rfl]
        have hactp : ¬¬({initSt kb with command := Cmd.RGB}.kb.active = true) := by
          simp only [initSt]
          simp [hact]
        rw [if_neg hactp]
        rw [show activeSwitch C env {initSt kb with command := Cmd.RGB} w
            = (if scan3hexCount w = 3 then
                 StepOut.cont {initSt kb with
                   command := .RGB,
                   trace := (List.range C.N_KEYS_EXTENDED).map
                     fun i => Ev.rgbEv (-1) (i : Int) w}
               else StepOut.fall {initSt kb with command := .RGB}) from rfl]
        by_cases h3 : scan3hexCount w = 3
        · rw [if_pos h3, if_pos h3]
        · rw [if_neg h3, if_neg h3]
  simp only [readWords, h1, h2, Bool.false_eq_true, if_false]

/-- Claim C1, as stated, is false: the `sscanf` probe ignores trailing
content and accepts a one-digit final field, so `"abcdefg"` and
`"abcde"` do *not* fall through to the colon-split family -- both
trigger the full per-key broadcast, exactly like `"abcdef"`. -/
theorem C1_counterexample :
    scan3hexCount "abcdefg" = 3 ∧ scan3hexCount "abcde" = 3
    ∧ (readWords Cfix envFix (initSt kbFix) ["rgb", "abcdefg"]).2.trace
        = [Ev.rgbEv (-1) 0 "abcdefg", Ev.rgbEv (-1) 1 "abcdefg",
           Ev.rgbEv (-1) 2 "abcdefg"]
    ∧ (readWords Cfix envFix (initSt kbFix) ["rgb", "abcde"]).2.trace
        = [Ev.rgbEv (-1) 0 "abcde", Ev.rgbEv (-1) 1 "abcde",
           Ev.rgbEv (-1) 2 "abcde"] := by
  refine ⟨by decide, by decide, by decide, by decide⟩

/-- Claim C1 amended: on an active, healthy device the per-key
broadcast runs if and only if `sscanf(word, "%02x%02x%02x", ...)`
assigns all three fields; when it does, `vt->rgb` is invoked once per
key index with channel `-1`, and otherwise the word reaches the
colon-split family and no broadcast call is made.  Any six hexadecimal
digits satisfy the probe, but so do words with trailing content after
the sixth digit and words with a one-digit final field. -/
theorem C1_amended (C : Consts) (env : Env) (kb : KB) (w : String)
    (a b c d e f : Char)
    (hact : kb.active = true) (hfw : kb.needsFwUpdate = false)
    (hm : matchCmd w = none) (hat : scanAt w = none)
    (ha : isHexC a = true) (hb : isHexC b = true) (hc : isHexC c = true)
    (hd : isHexC d = true) (he : isHexC e = true) (hf : isHexC f = true) :
    (scan3hexCount w = 3 →
      (readWords C env (initSt kb) ["rgb", w]).2.trace
        = (List.range C.N_KEYS_EXTENDED).map fun i => Ev.rgbEv (-1) (i : Int) w)
    ∧ (scan3hexCount w ≠ 3 →
      ((readWords C env (initSt kb) ["rgb", w]).2.trace).all
        (fun ev => !isRgbEv ev) = true)
    ∧ scan3hexCount (String.mk [a, b, c, d, e, f]) = 3 := by
  refine ⟨?_, ?_, scan3hexCount_sixHex ha hb hc hd he hf⟩
  · intro h3
    rw [readWords_rgb C env kb w hact hfw hm hat]
    simp [h3]
  · intro h3
    rw [readWords_rgb C env kb w hact hfw hm hat]
    simp only [if_neg h3]
    rw [List.all_eq_true]
    intro ev hev
    have hshape := colonSplit_no_rgb C {initSt kb with command := .RGB} w
      (by intro e2 he2; simp [initSt] at he2) ev hev
    simp [hshape]

/-- Witness for `C1_amended` on `rgb ff0080` against the fixtures. -/
theorem C1_amended_witness :
    (scan3hexCount "ff0080" = 3 →
      (readWords Cfix envFix (initSt kbFix) ["rgb", "ff0080"]).2.trace
        = (List.range Cfix.N_KEYS_EXTENDED).map
            fun i => Ev.rgbEv (-1) (i : Int) "ff0080")
    ∧ (scan3hexCount "ff0080" ≠ 3 →
      ((readWords Cfix envFix (initSt kbFix) ["rgb", "ff0080"]).2.trace).all
        (fun ev => !isRgbEv ev) = true)
    ∧ scan3hexCount (String.mk ['a', 'b', 'c', 'd', 'e', 'f']) = 3 :=
  C1_amended Cfix envFix kbFix "ff0080" 'a' 'b' 'c' 'd' 'e' 'f'
    rfl rfl (by decide) (by decide) (by decide) (by decide) (by decide)
    (by decide) (by decide) (by decide)

/-! ## Claims C5 and C10: the notification-channel selector -/

/-- The state carried by a dispatch outcome. -/
def StepOut.outSt : StepOut → St
  | .cont s => s
  | .abort s => s
  | .fall s => s

/-- The idle-safe switch never changes the notification channel. -/
theorem alwaysSwitch_notify (C : Consts) (st : St) (w : String) (st2 : St)
    (h : alwaysSwitch C st w = some st2) :
    st2.notifynumber = st.notifynumber := by
  unfold alwaysSwitch at h
  split at h <;>
    first
      | exact Option.noConfusion h
      | (obtain rfl := Option.some.inj h
         repeat' split
         all_goals simp [emit])

/-- The active-only switch never changes the notification channel. -/
theorem activeSwitch_notify (C : Consts) (env : Env) (st : St) (w : String) :
    ((activeSwitch C env st w).outSt).notifynumber = st.notifynumber := by
  unfold activeSwitch activeSwitch.hwHandler
  repeat' split
  all_goals (try simp only [emit])
  all_goals (repeat' split)
  all_goals (first | rfl | simp [StepOut.outSt, emit, runHarness])

/-- The colon-split family never changes the notification channel. -/
theorem colonSplit_notify (C : Consts) (st : St) (w : String) :
    (colonSplit C st w).notifynumber = st.notifynumber := by
  simp only [colonSplit, emit]
  repeat' split
  all_goals rfl

/-- The post-match phase of a word that is not an in-range channel
selector never changes the notification channel. -/
theorem stepRest_notify (C : Consts) (env : Env) (st : St) (w : String)
    (hsel : scanAt w = none ∨ ∃ n, scanAt w = some n ∧ ¬(n < C.OUTFIFO_MAX)) :
    ((stepRest C env st w).2).notifynumber = st.notifynumber := by
  unfold stepRest stepGates
  have hbody :
      ∀ q : Bool × St, q.2.notifynumber = st.notifynumber → True := fun _ _ => trivial
  rcases hsel with h | ⟨n, h, hn⟩ <;> simp only [h]
  case _ =>
    split
    · rfl
    · split
      · rfl
      · split
        · rename_i st2 heq
          exact alwaysSwitch_notify C st w st2 heq
        · split
          · split
            · split
              · simp [runHarness]
              · simp [runHarness]
            · rfl
          · split
            · rename_i st2 heq
              have := activeSwitch_notify C env st w
              rw [heq] at this
              exact this
            · rename_i st2 heq
              have := activeSwitch_notify C env st w
              rw [heq] at this
              exact this
            · rename_i st2 heq
              have h2 := activeSwitch_notify C env st w
              rw [heq] at h2
              rw [colonSplit_notify]
              exact h2
  case _ =>
    rw [if_neg hn]
    split
    · rfl
    · split
      · rfl
      · split
        · rename_i st2 heq
          exact alwaysSwitch_notify C st w st2 heq
        · split
          · split
            · split
              · simp [runHarness]
              · simp [runHarness]
            · rfl
          · split
            · rename_i st2 heq
              have := activeSwitch_notify C env st w
              rw [heq] at this
              exact this
            · rename_i st2 heq
              have := activeSwitch_notify C env st w
              rw [heq] at this
              exact this
            · rename_i st2 heq
              have h2 := activeSwitch_notify C env st w
              rw [heq] at h2
              rw [colonSplit_notify]
              exact h2

/-- A word that is no verb but parses as an in-range `@<decimal>`
selector only records the new channel: no gate, handler or trace
action runs, and the pending command survives. -/
theorem stepWord_selector (C : Consts) (env : Env) (st : St) (w : String)
    (n : Int) (hm : matchCmd w = none) (hat : scanAt w = some n)
    (hlt : n < C.OUTFIFO_MAX) :
    stepWord C env st w = (false, {st with notifynumber := n}) := by
  simp only [stepWord, hm, stepRest, hat, stepGates]
  rw [if_pos hlt]

/-- Any word whose `@%d` scan is out of range (or fails) leaves the
notification channel unchanged, whatever else it does. -/
theorem stepWord_notify_preserved (C : Consts) (env : Env) (st : St)
    (w : String)
    (hsel : scanAt w = none ∨ ∃ n, scanAt w = some n ∧ ¬(n < C.OUTFIFO_MAX)) :
    ((stepWord C env st w).2).notifynumber = st.notifynumber := by
  unfold stepWord
  split
  · rename_i c0 heq
    cases hac : isAction (demoteLinux c0) with
    | true =>
      simp only [hac, if_true]
      exact stepRest_notify C env _ w hsel
    | false =>
      simp only [hac, Bool.false_eq_true, if_false]
  · exact stepRest_notify C env st w hsel

/-- Claim C5, as stated, is false: the source checks only
`newnotify < OUTFIFO_MAX` and never the lower bound, so the word `@-1`
(decimal value `-1 < 0`) *does* become the current channel -- the
subsequent `get` runs on channel `-1`. -/
theorem C5_counterexample :
    scanAt "@-1" = some (-1) ∧ ((-1 : Int) < 0)
    ∧ (readcmd Cfix envFix kbFix ["@-1", "get", "xyz"]).2.trace
        = [Ev.getEv (-1) "xyz", Ev.updatergbEv 0 5, Ev.updatedpiEv 0] := by
  refine ⟨by decide, by decide, by decide⟩

/-- Claim C5 amended: a word parsing as `@<decimal>` (sign included)
sets the current notification channel for the rest of the line if and
only if its value is `< OUTFIFO_MAX` -- there is no lower-bound check,
so negative values are accepted; an out-of-range `@N` leaves the
channel unchanged; and the channel is reset to 0 at the start of every
line. -/
theorem C5_amended (C : Consts) (env : Env) (st : St) (kb : KB)
    (w : String) (n : Int)
    (hm : matchCmd w = none) (hat : scanAt w = some n) :
    (n < C.OUTFIFO_MAX →
      stepWord C env st w = (false, {st with notifynumber := n}))
    ∧ (¬(n < C.OUTFIFO_MAX) →
      ((stepWord C env st w).2).notifynumber = st.notifynumber)
    ∧ (initSt kb).notifynumber = 0 := by
  refine ⟨fun hlt => stepWord_selector C env st w n hm hat hlt,
    fun hge => stepWord_notify_preserved C env st w (Or.inr ⟨n, hat, hge⟩),
    rfl⟩

/-- Witness for `C5_amended` at `@3` against the fixtures. -/
theorem C5_amended_witness :
    ((3 : Int) < Cfix.OUTFIFO_MAX →
      stepWord Cfix envFix (initSt kbFix) "@3"
        = (false, {initSt kbFix with notifynumber := 3}))
    ∧ (¬((3 : Int) < Cfix.OUTFIFO_MAX) →
      ((stepWord Cfix envFix (initSt kbFix) "@3").2).notifynumber
        = (initSt kbFix).notifynumber)
    ∧ (initSt kbFix).notifynumber = 0 :=
  C5_amended Cfix envFix (initSt kbFix) kbFix "@3" 3 (by decide) (by decide)

/-- Claim C10: a channel-selector word between an argument-taking verb
and its argument does not cancel the pending verb -- the selector step
changes only `notifynumber`, leaving the recorded command in place, so
the next non-selector word is consumed as that verb's argument on the
newly selected channel; concretely, `name @3 foo` produces exactly one
`do_cmd[NAME]` call with word `foo` on channel 3. -/
theorem C10_selector_keeps_pending (C : Consts) (env : Env) (st : St)
    (w : String) (n : Int)
    (hm : matchCmd w = none) (hat : scanAt w = some n)
    (hlt : n < C.OUTFIFO_MAX) :
    (stepWord C env st w = (false, {st with notifynumber := n})
      ∧ ((stepWord C env st w).2).command = st.command
      ∧ ((stepWord C env st w).2).trace = st.trace)
    ∧ (readWords Cfix envFix (initSt kbFix) ["name", "@3", "foo"]).2.trace
        = [Ev.doCmd .NAME 3 0 "foo"] := by
  refine ⟨⟨stepWord_selector C env st w n hm hat hlt, ?_, ?_⟩, by decide⟩
  · rw [stepWord_selector C env st w n hm hat hlt]
  · rw [stepWord_selector C env st w n hm hat hlt]

/-- Witness for `C10_selector_keeps_pending` at `@5`. -/
theorem C10_selector_keeps_pending_witness :
    (stepWord Cfix envFix (initSt kbFix) "@5"
        = (false, {initSt kbFix with notifynumber := 5})
      ∧ ((stepWord Cfix envFix (initSt kbFix) "@5").2).command
        = (initSt kbFix).command
      ∧ ((stepWord Cfix envFix (initSt kbFix) "@5").2).trace
        = (initSt kbFix).trace)
    ∧ (readWords Cfix envFix (initSt kbFix) ["name", "@3", "foo"]).2.trace
        = [Ev.doCmd .NAME 3 0 "foo"] :=
  C10_selector_keeps_pending Cfix envFix (initSt kbFix) "@5" 5
    (by decide) (by decide) (by decide)

/-! ## Claim C9: the FPS handler -/

/-- The source's clamp chain equals the specification's
`clamp(d, 2, 10)`. -/
theorem clampChain_eq_max_min (d : Nat) :
    (if d < 2 then 2 else if d > 10 then 10 else d) = max 2 (min 10 d) := by
  repeat' split
  all_goals omega

/-- Behavior of a two-word `fps <arg>` line on a device that is not
firmware-bricked (the handler is idle-safe, so `active` is
irrelevant). -/
theorem readWords_fps (C : Consts) (env : Env) (kb : KB) (w : String)
    (hfw : kb.needsFwUpdate = false) (hm : matchCmd w = none)
    (hat : scanAt w = none) :
    readWords C env (initSt kb) ["fps", w]
      = (false,
         match scan_u w.toList with
         | some framerate =>
           if 0 < framerate then
             {initSt kb with
                command := .FPS,
                kb := {kb with usbdelay :=
                  let per_frame : Nat :=
                    if kb.isMouse then 2 else if kb.isFullrange then 14 else 5
                  let delay := 1000 / framerate / per_frame
                  if delay < 2 then 2 else if delay > 10 then 10 else delay}}
           else {initSt kb with command := .FPS}
         | none => {initSt kb with command := .FPS}) := by
  have h1 : stepWord C env (initSt kb) "fps"
      = (false, {initSt kb with command := .FPS}) := rfl
  have h2 : stepWord C env {initSt kb with command := .FPS} w
      = (false,
         match scan_u w.toList with
         | some framerate =>
           if 0 < framerate then
             {initSt kb with
                command := .FPS,
                kb := {kb with usbdelay :=
                  let per_frame : Nat :=
                    if kb.isMouse then 2 else if kb.isFullrange then 14 else 5
                  let delay := 1000 / framerate / per_frame
                  if delay < 2 then 2 else if delay > 10 then 10 else delay}}
           else {initSt kb with command := .FPS}
         | none => {initSt kb with command := .FPS}) := by
    simp only [stepWord, hm, stepRest, hat, stepGates]
    split
    · rename_i hcond
      exfalso
      simp only [initSt] at hcond
      rcases hcond with h | ⟨-, h | h | h | h | h⟩ | ⟨-, h⟩ <;> simp at h
    · split
      · rename_i hcond
        exfalso
        simp only [initSt] at hcond
        rw [hfw] at hcond
        simp at hcond
      · rfl
  simp only [readWords, h1, h2, Bool.false_eq_true, if_false]

/-- Claim C9, as stated, is false: the decimal argument is converted
through a 32-bit `unsigned`, so `fps 4294967296` parses as the value 0
and is ignored (usb_delay stays 5), while the claim's formula
`clamp(1000 / F / per_frame, 2, 10)` demands 2. -/
theorem C9_counterexample :
    scan_u "4294967296".toList = some 0
    ∧ (readcmd Cfix envFix kbFix ["fps", "4294967296"]).2.kb.usbdelay = 5
    ∧ kbFix.usbdelay = 5
    ∧ max 2 (min 10 (1000 / 4294967296 / 5)) = 2 := by
  refine ⟨by decide, by decide, by decide, by decide⟩

/-- Claim C9 amended: the FPS argument is read into a 32-bit
`unsigned`; when the converted value `fr` is positive, `usb_delay`
becomes `clamp(1000 / fr / per_frame, 2, 10)` with `per_frame` 2 for
mice, 14 for full-range keyboards, else 5; when the conversion yields
0 (including `fps 0` and any multiple of `2^32`) or fails, the word is
ignored; and every FPS argument leaves `usb_delay` in `[2, 10]` given
it started there. -/
theorem C9_amended (C : Consts) (env : Env) (kb : KB) (w : String) (fr : Nat)
    (hfw : kb.needsFwUpdate = false) (hm : matchCmd w = none)
    (hat : scanAt w = none)
    (hu : scan_u w.toList = some fr ∨ (scan_u w.toList = none ∧ fr = 0)) :
    (0 < fr →
      (readWords C env (initSt kb) ["fps", w]).2.kb.usbdelay
        = max 2 (min 10 (1000 / fr /
            (if kb.isMouse then 2 else if kb.isFullrange then 14 else 5))))
    ∧ (fr = 0 →
      (readWords C env (initSt kb) ["fps", w]).2.kb.usbdelay = kb.usbdelay)
    ∧ (2 ≤ kb.usbdelay ∧ kb.usbdelay ≤ 10 →
      2 ≤ (readWords C env (initSt kb) ["fps", w]).2.kb.usbdelay
        ∧ (readWords C env (initSt kb) ["fps", w]).2.kb.usbdelay ≤ 10) := by
  rw [readWords_fps C env kb w hfw hm hat]
  rcases hu with hu | ⟨hu, rfl⟩
  · simp only [hu]
    refine ⟨?_, ?_, ?_⟩
    · intro hfr
      rw [if_pos hfr]
      simp only [initSt]
      rw [clampChain_eq_max_min]
    · intro h0
      subst h0
      rw [if_neg (by omega)]
      rfl
    · intro hrange
      by_cases hfr : 0 < fr
      · rw [if_pos hfr]
        simp only [initSt]
        constructor <;> (repeat' split) <;> omega
      · rw [if_neg hfr]
        exact hrange
  · simp only [hu]
    exact ⟨fun h => absurd h (by omega), fun _ => rfl, fun h => h⟩

/-- Witness for `C9_amended` at `fps 500` on the fixture keyboard. -/
theorem C9_amended_witness :
    (0 < 500 →
      (readWords Cfix envFix (initSt kbFix) ["fps", "500"]).2.kb.usbdelay
        = max 2 (min 10 (1000 / 500 /
            (if kbFix.isMouse then 2 else if kbFix.isFullrange then 14 else 5))))
    ∧ (500 = 0 →
      (readWords Cfix envFix (initSt kbFix) ["fps", "500"]).2.kb.usbdelay
        = kbFix.usbdelay)
    ∧ (2 ≤ kbFix.usbdelay ∧ kbFix.usbdelay ≤ 10 →
      2 ≤ (readWords Cfix envFix (initSt kbFix) ["fps", "500"]).2.kb.usbdelay
        ∧ (readWords Cfix envFix (initSt kbFix) ["fps", "500"]).2.kb.usbdelay ≤ 10) :=
  C9_amended Cfix envFix kbFix "500" 500 rfl (by decide) (by decide)
    (Or.inl (by decide))

/-! ## Claim C4: retry-with-reset versus single-shot FWUPDATE -/

/-- Every event a harness loop emits is the action or a reset. -/
theorem tryLoop_mem (ev : Ev) (r : Nat → Bool) :
    ∀ n j, ∀ e ∈ (tryLoop ev r n j).2, e = ev ∨ e = Ev.tryreset := by
  intro n
  induction n with
  | zero =>
    intro j e he
    simp only [tryLoop, List.mem_singleton] at he
    exact Or.inl he
  | succ n ih =>
    intro j e he
    simp only [tryLoop] at he
    split at he
    · simp only [List.mem_cons] at he
      rcases he with rfl | rfl | he
      · exact Or.inl rfl
      · exact Or.inr rfl
      · exact ih (j + 1) e he
    · simp only [List.mem_cons, List.mem_singleton] at he
      rcases he with rfl | rfl | he
      · exact Or.inl rfl
      · exact Or.inr rfl
      · simp at he

/-- When every reset succeeds, a harness whose action fails `n` times
performs exactly `n + 1` attempts with `n` resets in between and does
not abort. -/
theorem tryLoop_allOk (ev : Ev) (r : Nat → Bool) (hev : ev ≠ Ev.tryreset)
    (hok : ∀ j, r j = true) :
    ∀ n j, (tryLoop ev r n j).1 = false
      ∧ ((tryLoop ev r n j).2).count ev = n + 1
      ∧ ((tryLoop ev r n j).2).count Ev.tryreset = n := by
  intro n
  induction n with
  | zero =>
    intro j
    refine ⟨rfl, ?_, ?_⟩ <;>
      simp [tryLoop, List.count_cons, List.count_nil, hev, Ne.symm hev]
  | succ n ih =>
    intro j
    obtain ⟨h1, h2, h3⟩ := ih (j + 1)
    simp only [tryLoop, hok j, if_true]
    refine ⟨h1, ?_, ?_⟩ <;>
      simp [List.count_cons, h2, h3, hev, Ne.symm hev]

/-- When the first reset fails, the harness aborts after a single
failed attempt and a single reset. -/
theorem tryLoop_reset_fails (ev : Ev) (r : Nat → Bool) (n : Nat)
    (h0 : r 0 = false) :
    tryLoop ev r (n + 1) 0 = (true, [ev, Ev.tryreset]) := by
  simp [tryLoop, h0]

/-- Behavior of a two-word `fwupdate <arg>` line on an active device:
exactly one `vt->fwupdate` call, no retry, aborting iff the oracle
fails the call. -/
theorem readWords_fwupdate (C : Consts) (env : Env) (kb : KB) (w : String)
    (hm : matchCmd w = none) (hat : scanAt w = none)
    (hact : kb.active = true) :
    readWords C env (initSt kb) ["fwupdate", w]
      = (env.fwFail 0,
         {initSt kb with
            command := .FWUPDATE, tick := 1,
            trace := [Ev.fwupdateEv 0 w]}) := by
  have h1 : stepWord C env (initSt kb) "fwupdate"
      = (false, {initSt kb with command := .FWUPDATE}) := rfl
  have h2 : stepWord C env {initSt kb with command := .FWUPDATE} w
      = (env.fwFail 0,
         {initSt kb with
            command := .FWUPDATE, tick := 1,
            trace := [Ev.fwupdateEv 0 w]}) := by
    simp only [stepWord, hm, stepRest, hat, stepGates]
    split
    · rename_i hcond
      exfalso
      simp only [initSt] at hcond
      rcases hcond with h | ⟨-, h | h | h | h | h⟩ | ⟨-, h⟩ <;> simp at h
    · split
      · rename_i hcond
        exfalso
        simp only [initSt] at hcond
        rcases hcond with ⟨-, h, -⟩
        simp at h
      · rw [show alwaysSwitch C {initSt kb with command := Cmd.FWUPDATE} w
            = none from rfl]
        have hactp :
            ¬¬({initSt kb with command := Cmd.FWUPDATE}.kb.active = true) := by
          simp only [initSt]
          simp [hact]
        rw [if_neg hactp]
        rw [show activeSwitch C env {initSt kb with command := Cmd.FWUPDATE} w
            = (if env.fwFail 0 then
                 StepOut.abort {initSt kb with
                   command := .FWUPDATE, tick := 1,
                   trace := [Ev.fwupdateEv 0 w]}
               else
                 StepOut.cont {initSt kb with
                   command := .FWUPDATE, tick := 1,
                   trace := [Ev.fwupdateEv 0 w]}) from rfl]
        cases hf : env.fwFail 0 <;> simp [hf]
  cases hf : env.fwFail 0 <;>
    simp [readWords, h1, h2, hf]

/-- An oracle whose `vt->fwupdate` always fails. -/
def envFixFail : Env := {envFix with fwFail := fun _ => true}

/-- Claim C4: a harness-wrapped call (`HWLOAD`/`HWSAVE`/`POLLRATE`/
`IDLE`/`ACTIVE`/`updatergb`/`updatedpi` all go through `tryLoop`) is
retried while it fails, with a successful transport reset required
between attempts, and a failed reset aborts the line with return value
1; `FWUPDATE`, by contrast, is called exactly once with no retry, and
a non-zero result returns 1 immediately with no post-line flush. -/
theorem C4_harness_and_fwupdate
    (ev : Ev) (r r2 : Nat → Bool) (n m : Nat)
    (C : Consts) (env : Env) (kb : KB) (w : String)
    (hev : ev ≠ Ev.tryreset) (hok : ∀ j, r j = true) (hr2 : r2 0 = false)
    (hm : matchCmd w = none) (hat : scanAt w = none)
    (hact : kb.active = true) :
    ((tryLoop ev r n 0).1 = false
      ∧ ((tryLoop ev r n 0).2).count ev = n + 1
      ∧ ((tryLoop ev r n 0).2).count Ev.tryreset = n)
    ∧ tryLoop ev r2 (m + 1) 0 = (true, [ev, Ev.tryreset])
    ∧ (readWords C env (initSt kb) ["fwupdate", w]).2.trace
        = [Ev.fwupdateEv 0 w]
    ∧ (env.fwFail 0 = true →
        readcmd C env kb ["fwupdate", w]
          = (1, {initSt kb with
                   command := .FWUPDATE, tick := 1,
                   trace := [Ev.fwupdateEv 0 w]})) := by
  refine ⟨tryLoop_allOk ev r hev hok n 0, tryLoop_reset_fails ev r2 m hr2,
    ?_, ?_⟩
  · rw [readWords_fwupdate C env kb w hm hat hact]
  · intro hf
    unfold readcmd
    rw [readWords_fwupdate C env kb w hm hat hact, hf]
    rfl

/-- Witness for `C4_harness_and_fwupdate`: a twice-failing harnessed
call with working resets, a failing first reset, and a failing
firmware update of `blob`. -/
theorem C4_harness_and_fwupdate_witness :
    ((tryLoop (Ev.idleEv 0) (fun _ => true) 2 0).1 = false
      ∧ ((tryLoop (Ev.idleEv 0) (fun _ => true) 2 0).2).count (Ev.idleEv 0) = 3
      ∧ ((tryLoop (Ev.idleEv 0) (fun _ => true) 2 0).2).count Ev.tryreset = 2)
    ∧ tryLoop (Ev.idleEv 0) (fun _ => false) 1 0
        = (true, [Ev.idleEv 0, Ev.tryreset])
    ∧ (readWords Cfix envFixFail (initSt kbFix) ["fwupdate", "blob"]).2.trace
        = [Ev.fwupdateEv 0 "blob"]
    ∧ (envFixFail.fwFail 0 = true →
        readcmd Cfix envFixFail kbFix ["fwupdate", "blob"]
          = (1, {initSt kbFix with
                   command := .FWUPDATE, tick := 1,
                   trace := [Ev.fwupdateEv 0 "blob"]})) :=
  C4_harness_and_fwupdate (Ev.idleEv 0) (fun _ => true) (fun _ => false) 2 0
    Cfix envFixFail kbFix "blob" (by decide) (fun _ => rfl) rfl
    (by decide) (by decide) rfl

/-! ## Claim C7: the temporary usb_delay raise of HWLOAD/HWSAVE -/

/-- Did the dispatch outcome abort the line (`return 1`)? -/
def StepOut.isAbort : StepOut → Bool
  | .abort _ => true
  | _ => false

/-- Events admissible inside a `HWLOAD`/`HWSAVE` handler: the
hardware I/O at delay `d`, the forced RGB update at delay `d`, or a
transport reset. -/
def hwEvOk (c : Cmd) (ch : Int) (d : Nat) (e : Ev) : Bool :=
  e = Ev.doIo c ch d ∨ e = Ev.updatergbEv 1 d ∨ e = Ev.tryreset

/-- All events of a harness loop satisfy a predicate that holds for the
action and for resets. -/
theorem tryLoop_all {p : Ev → Bool} (ev : Ev) (r : Nat → Bool) (n j : Nat)
    (hp : p ev = true) (hpt : p Ev.tryreset = true) :
    ((tryLoop ev r n j).2).all p = true := by
  rw [List.all_eq_true]
  intro e he
  rcases tryLoop_mem ev r n j e he with rfl | rfl
  · exact hp
  · exact hpt

/-- The `HWLOAD`/`HWSAVE` handler: every call it makes carries
`usb_delay = max(old, 10)`; on the normal exit the saved delay is
restored; on the abort exit the delay is left raised. -/
theorem hwHandler_spec (env : Env) (st : St) (c : Cmd) (htr : st.trace = []) :
    (((activeSwitch.hwHandler env st c).outSt).trace).all
        (hwEvOk c st.notifynumber
          (if st.kb.usbdelay < 10 then 10 else st.kb.usbdelay)) = true
    ∧ ((activeSwitch.hwHandler env st c).isAbort = false →
        ((activeSwitch.hwHandler env st c).outSt).kb.usbdelay
          = st.kb.usbdelay)
    ∧ ((activeSwitch.hwHandler env st c).isAbort = true →
        ((activeSwitch.hwHandler env st c).outSt).kb.usbdelay
          = (if st.kb.usbdelay < 10 then 10 else st.kb.usbdelay)) := by
  by_cases hd : st.kb.usbdelay < 10 <;>
    simp only [activeSwitch.hwHandler, runHarness, hd, if_true, if_false] <;>
    repeat' split
  all_goals refine ⟨?_, ?_, ?_⟩
  all_goals try (simp [StepOut.outSt, StepOut.isAbort]; done)
  all_goals
    simp only [StepOut.outSt, htr, List.all_append, List.all_eq_true,
      List.nil_append, List.append_assoc, List.mem_append, Bool.and_eq_true]
  all_goals
    first
      | (intro e he
         rcases tryLoop_mem _ _ _ _ e he with rfl | rfl <;> simp [hwEvOk])
      | (constructor <;>
          (intro e he
           rcases tryLoop_mem _ _ _ _ e he with rfl | rfl <;> simp [hwEvOk]))

/-- The `HWLOAD`/`HWSAVE` handler either continues or aborts; it never
falls through to the colon split. -/
theorem hwHandler_cases (env : Env) (st : St) (c : Cmd) :
    (∃ s, activeSwitch.hwHandler env st c = .cont s)
    ∨ (∃ s, activeSwitch.hwHandler env st c = .abort s) := by
  simp only [activeSwitch.hwHandler, runHarness]
  repeat' split
  all_goals
    first
      | exact Or.inl ⟨_, rfl⟩
      | exact Or.inr ⟨_, rfl⟩

/-- The words `hwload`/`hwsave` on an active, healthy device dispatch
to the `HWLOAD`/`HWSAVE` handler. -/
theorem stepWord_hw (C : Consts) (env : Env) (st : St) (w : String) (c : Cmd)
    (hcase : (w = "hwload" ∧ c = Cmd.HWLOAD) ∨ (w = "hwsave" ∧ c = Cmd.HWSAVE))
    (hact : st.kb.active = true) (hfw : st.kb.needsFwUpdate = false) :
    stepWord C env st w
      = ((activeSwitch.hwHandler env {st with command := c} c).isAbort,
         (activeSwitch.hwHandler env {st with command := c} c).outSt) := by
  have main : ∀ w2 c2,
      (w2 = "hwload" ∧ c2 = Cmd.HWLOAD) ∨ (w2 = "hwsave" ∧ c2 = Cmd.HWSAVE) →
      stepRest C env {st with command := c2} w2
        = ((activeSwitch.hwHandler env {st with command := c2} c2).isAbort,
           (activeSwitch.hwHandler env {st with command := c2} c2).outSt) := by
    rintro w2 c2 (⟨rfl, rfl⟩ | ⟨rfl, rfl⟩)
    · simp only [stepRest, stepGates, show scanAt "hwload" = none from rfl]
      split
      · rename_i hcond
        exfalso
        rcases hcond with h | ⟨-, h | h | h | h | h⟩ | ⟨-, h⟩ <;> simp at h
      · split
        · rename_i hcond
          exact absurd hcond.1 (by simp [hfw])
        · simp only [show alwaysSwitch C {st with command := Cmd.HWLOAD} "hwload"
              = none from rfl, hact, Bool.not_true, Bool.false_eq_true,
            not_false_eq_true, if_false, Bool.true_eq_false, if_neg]
          rw [show activeSwitch C env {st with command := Cmd.HWLOAD} "hwload"
              = activeSwitch.hwHandler env {st with command := Cmd.HWLOAD}
                  Cmd.HWLOAD from rfl]
          rcases hwHandler_cases env {st with command := Cmd.HWLOAD}
              Cmd.HWLOAD with ⟨s, hs⟩ | ⟨s, hs⟩ <;>
            rw [hs] <;> rfl
    · simp only [stepRest, stepGates, show scanAt "hwsave" = none from rfl]
      split
      · rename_i hcond
        exfalso
        rcases hcond with h | ⟨-, h | h | h | h | h⟩ | ⟨-, h⟩ <;> simp at h
      · split
        · rename_i hcond
          exact absurd hcond.1 (by simp [hfw])
        · simp only [show alwaysSwitch C {st with command := Cmd.HWSAVE} "hwsave"
              = none from rfl, hact, Bool.not_true, Bool.false_eq_true,
            not_false_eq_true, if_false, Bool.true_eq_false, if_neg]
          rw [show activeSwitch C env {st with command := Cmd.HWSAVE} "hwsave"
              = activeSwitch.hwHandler env {st with command := Cmd.HWSAVE}
                  Cmd.HWSAVE from rfl]
          rcases hwHandler_cases env {st with command := Cmd.HWSAVE}
              Cmd.HWSAVE with ⟨s, hs⟩ | ⟨s, hs⟩ <;>
            rw [hs] <;> rfl
  rcases hcase with ⟨rfl, rfl⟩ | ⟨rfl, rfl⟩
  · have h0 : stepWord C env st "hwload"
        = stepRest C env {st with command := Cmd.HWLOAD} "hwload" := rfl
    rw [h0]
    exact main "hwload" Cmd.HWLOAD (Or.inl ⟨rfl, rfl⟩)
  · have h0 : stepWord C env st "hwsave"
        = stepRest C env {st with command := Cmd.HWSAVE} "hwsave" := rfl
    rw [h0]
    exact main "hwsave" Cmd.HWSAVE (Or.inr ⟨rfl, rfl⟩)

/-- An oracle whose first harnessed call fails once and whose transport
resets always fail. -/
def envFixHwAbort : Env :=
  {envFix with actFail := fun _ => 1, resetOk := fun _ _ => false}

/-- Claim C7, as stated, is false on the abort exit path: when the
hardware I/O of `hwload` fails and the transport reset also fails, the
line handler returns 1 while `usb_delay` is still 10, not the 5 it
held before the command -- the raise is *not* temporary on every exit
path. -/
theorem C7_counterexample :
    kbFix.usbdelay = 5
    ∧ (readcmd Cfix envFixHwAbort kbFix ["hwload"]).1 = 1
    ∧ (readcmd Cfix envFixHwAbort kbFix ["hwload"]).2.kb.usbdelay = 10
    ∧ ¬((readcmd Cfix envFixHwAbort kbFix ["hwload"]).2.kb.usbdelay
        = kbFix.usbdelay) := by
  refine ⟨by decide, by decide, by decide, by decide⟩

/-- Claim C7 amended: during a `HWLOAD`/`HWSAVE` command every call
(`do_io`, the forced `updatergb`, any resets) runs with
`usb_delay = max(old, 10) ≥ 10`; when the command completes normally
`usb_delay` is restored to its prior value; but on the
reset-failure abort path the handler returns 1 with `usb_delay` still
raised. -/
theorem C7_amended (C : Consts) (env : Env) (st : St) (w : String) (c : Cmd)
    (hcase : (w = "hwload" ∧ c = Cmd.HWLOAD) ∨ (w = "hwsave" ∧ c = Cmd.HWSAVE))
    (hact : st.kb.active = true) (hfw : st.kb.needsFwUpdate = false)
    (htr : st.trace = []) :
    (((stepWord C env st w).2).trace).all
        (hwEvOk c st.notifynumber
          (if st.kb.usbdelay < 10 then 10 else st.kb.usbdelay)) = true
    ∧ ((stepWord C env st w).1 = false →
        ((stepWord C env st w).2).kb.usbdelay = st.kb.usbdelay)
    ∧ ((stepWord C env st w).1 = true →
        ((stepWord C env st w).2).kb.usbdelay
          = (if st.kb.usbdelay < 10 then 10 else st.kb.usbdelay))
    ∧ 10 ≤ (if st.kb.usbdelay < 10 then 10 else st.kb.usbdelay) := by
  rw [stepWord_hw C env st w c hcase hact hfw]
  have hspec := hwHandler_spec env {st with command := c} c htr
  refine ⟨hspec.1, hspec.2.1, hspec.2.2, ?_⟩
  split <;> omega

/-- Witness for `C7_amended`: a clean `hwload` on the fixture keyboard
(delay 5 raised to 10 and restored). -/
theorem C7_amended_witness :
    (((stepWord Cfix envFix (initSt kbFix) "hwload").2).trace).all
        (hwEvOk Cmd.HWLOAD (initSt kbFix).notifynumber
          (if (initSt kbFix).kb.usbdelay < 10 then 10
           else (initSt kbFix).kb.usbdelay)) = true
    ∧ ((stepWord Cfix envFix (initSt kbFix) "hwload").1 = false →
        ((stepWord Cfix envFix (initSt kbFix) "hwload").2).kb.usbdelay
          = (initSt kbFix).kb.usbdelay)
    ∧ ((stepWord Cfix envFix (initSt kbFix) "hwload").1 = true →
        ((stepWord Cfix envFix (initSt kbFix) "hwload").2).kb.usbdelay
          = (if (initSt kbFix).kb.usbdelay < 10 then 10
             else (initSt kbFix).kb.usbdelay))
    ∧ 10 ≤ (if (initSt kbFix).kb.usbdelay < 10 then 10
            else (initSt kbFix).kb.usbdelay) :=
  C7_amended Cfix envFix (initSt kbFix) "hwload" Cmd.HWLOAD
    (Or.inl ⟨rfl, rfl⟩) rfl rfl rfl

/-! ## Claim C2: the RGB rate limiter -/

/-- Is a trace event the monotonic sleep of the rate limiter? -/
def isSleepEv (e : Ev) : Bool :=
  match e with
  | .sleepEv _ => true
  | _ => false

/-- The flush calls leave the device state untouched. -/
theorem flushCalls_kb (env : Env) (st : St) :
    ((flushCalls env st).2).kb = st.kb := by
  simp only [flushCalls, runHarness]
  repeat' split
  all_goals rfl

/-- The flush calls only extend the trace. -/
theorem flushCalls_mem (env : Env) (st : St) :
    ∀ e ∈ st.trace, e ∈ ((flushCalls env st).2).trace := by
  simp only [flushCalls, runHarness]
  repeat' split
  all_goals (intro e he; simp [he])

/-- The flush calls never sleep. -/
theorem flushCalls_no_sleep (env : Env) (st : St)
    (hst : st.trace.all (fun e => !isSleepEv e) = true) :
    (((flushCalls env st).2).trace).all (fun e => !isSleepEv e) = true := by
  simp only [flushCalls, runHarness]
  repeat' split
  all_goals
    simp only [List.all_append, List.append_assoc, hst, Bool.true_and]
  all_goals
    first
      | (rw [List.all_eq_true]
         intro e he
         rcases tryLoop_mem _ _ _ _ e he with rfl | rfl <;> simp [isSleepEv])
      | (rw [Bool.and_eq_true]
         constructor <;>
           (rw [List.all_eq_true]
            intro e he
            rcases tryLoop_mem _ _ _ _ e he with rfl | rfl <;> simp [isSleepEv]))

/-- Within realistic clock ranges the computed difference is exact: no
saturation and no wraparound. -/
theorem timespec_diff_exact (a b : Timespec)
    (h1 : 0 ≤ a.tv_nsec) (h2 : a.tv_nsec < 10 ^ 9)
    (h3 : 0 ≤ b.tv_nsec) (h4 : b.tv_nsec < 2 * 10 ^ 9)
    (h5 : 0 < a.totalNs - b.totalNs)
    (h6 : a.totalNs - b.totalNs ≤ 10 ^ 18) :
    timespec_diff_ns a b = a.totalNs - b.totalNs := by
  unfold Timespec.totalNs at h5 h6 ⊢
  have hws : wrap64 (a.tv_sec - b.tv_sec) = a.tv_sec - b.tv_sec := by
    apply wrap64_eq_self <;> omega
  have hwn : wrap64 (a.tv_nsec - b.tv_nsec) = a.tv_nsec - b.tv_nsec := by
    apply wrap64_eq_self <;> omega
  have hfin : wrap64 (a.tv_nsec - b.tv_nsec + (a.tv_sec - b.tv_sec) * 1000000000)
      = a.tv_nsec - b.tv_nsec + (a.tv_sec - b.tv_sec) * 1000000000 := by
    apply wrap64_eq_self <;> omega
  simp only [timespec_diff_ns, hws, hwn]
  rw [if_neg]
  · rw [hfin]
    ring
  · rintro ⟨hD, hle⟩
    rw [tdiv_eq_ediv_nonneg _ _ (by unfold LONG_MAX; omega) (by omega)] at hle
    unfold LONG_MAX at hle
    omega

/-- Claim C2, as stated, is false: the rate limiter keys on the *last*
recognized verb (`command == RGB` after the word loop), not on the
line having contained an RGB verb.  The line `rgb ff0000 name foo`
broadcasts RGB inside the 60.5 Hz window, yet the flush performs no
sleep and leaves `last_rgb` untouched, because the last verb is
`NAME`. -/
theorem C2_counterexample :
    0 < timespec_diff_ns envFix.now kbFix.last_rgb
    ∧ timespec_diff_ns envFix.now kbFix.last_rgb < HERTZ_LIM
    ∧ ((readcmd Cfix envFix kbFix ["rgb", "ff0000", "name", "foo"]).2.trace).all
        (fun e => !isSleepEv e) = true
    ∧ (readcmd Cfix envFix kbFix ["rgb", "ff0000", "name", "foo"]).2.kb.last_rgb
        = kbFix.last_rgb := by
  refine ⟨by decide, by decide, by decide, by decide⟩

/-- Claim C2 amended: when the *last observed verb* of the line is
`RGB` (and the firmware is healthy), the flush measures the monotonic
difference since `last_rgb`; inside the window it sleeps exactly
`HERTZ_LIM - diff` and stores the post-sleep instant, outside it it
sleeps nothing and stores `now`; either way consecutive limited
flushes end up spaced at least `HERTZ_LIM` apart. -/
theorem C2_amended (env : Env) (st : St)
    (hcmd : st.command = .RGB) (hfw : st.kb.needsFwUpdate = false)
    (htr : st.trace = [])
    (h1 : 0 ≤ env.now.tv_nsec) (h2 : env.now.tv_nsec < 10 ^ 9)
    (h3 : 0 ≤ st.kb.last_rgb.tv_nsec)
    (h4 : st.kb.last_rgb.tv_nsec < 2 * 10 ^ 9)
    (h5 : 0 < env.now.totalNs - st.kb.last_rgb.totalNs)
    (h6 : env.now.totalNs - st.kb.last_rgb.totalNs ≤ 10 ^ 18) :
    timespec_diff_ns env.now st.kb.last_rgb
        = env.now.totalNs - st.kb.last_rgb.totalNs
    ∧ (env.now.totalNs - st.kb.last_rgb.totalNs < HERTZ_LIM →
        Ev.sleepEv (HERTZ_LIM - (env.now.totalNs - st.kb.last_rgb.totalNs))
            ∈ ((flushLine env st).2).trace
        ∧ ((flushLine env st).2).kb.last_rgb
            = {env.now with tv_nsec := env.now.tv_nsec
                + (HERTZ_LIM - (env.now.totalNs - st.kb.last_rgb.totalNs))})
    ∧ (HERTZ_LIM ≤ env.now.totalNs - st.kb.last_rgb.totalNs →
        ((flushLine env st).2).kb.last_rgb = env.now
        ∧ (((flushLine env st).2).trace).all (fun e => !isSleepEv e) = true)
    ∧ HERTZ_LIM ≤ ((flushLine env st).2).kb.last_rgb.totalNs
        - st.kb.last_rgb.totalNs := by
  have hdiff := timespec_diff_exact env.now st.kb.last_rgb h1 h2 h3 h4 h5 h6
  have hfl : flushLine env st = flushCalls env (rateLimit env st) := by
    unfold flushLine
    rw [if_neg (by simp [hfw])]
  by_cases hW : env.now.totalNs - st.kb.last_rgb.totalNs < HERTZ_LIM
  · have hrl : rateLimit env st
        = {st with
             trace := st.trace ++ [.sleepEv (HERTZ_LIM
               - (env.now.totalNs - st.kb.last_rgb.totalNs))],
             kb := {st.kb with last_rgb := {env.now with
               tv_nsec := env.now.tv_nsec + (HERTZ_LIM
                 - (env.now.totalNs - st.kb.last_rgb.totalNs))}}} := by
      simp only [rateLimit, hcmd, hdiff, if_true]
      rw [if_pos ⟨h5, hW⟩]
    refine ⟨hdiff, fun _ => ?_, fun hge => absurd hge (by omega), ?_⟩
    · constructor
      · rw [hfl, hrl]
        apply flushCalls_mem
        simp [htr]
      · rw [hfl, flushCalls_kb, hrl]
    · rw [hfl, flushCalls_kb, hrl]
      unfold Timespec.totalNs at h5 h6 hW ⊢
      unfold HERTZ_LIM at hW ⊢
      dsimp only
      omega
  · have hrl : rateLimit env st = {st with kb := {st.kb with last_rgb := env.now}} := by
      simp only [rateLimit, hcmd, hdiff, if_true]
      rw [if_neg (fun hcon => absurd hcon.2 (by omega))]
    refine ⟨hdiff, fun hlt => absurd hlt (by omega), fun _ => ?_, ?_⟩
    · refine ⟨?_, ?_⟩
      · rw [hfl, flushCalls_kb, hrl]
      · rw [hfl, hrl]
        apply flushCalls_no_sleep
        simp [htr]
    · rw [hfl, flushCalls_kb, hrl]
      unfold Timespec.totalNs at h5 h6 hW ⊢
      unfold HERTZ_LIM at hW ⊢
      dsimp only
      omega

/-- Witness for `C2_amended`: a flush 5 ms after the previous RGB
flush on the fixture device. -/
theorem C2_amended_witness :
    timespec_diff_ns envFix.now
        ({initSt kbFix with command := Cmd.RGB}).kb.last_rgb
      = envFix.now.totalNs
        - ({initSt kbFix with command := Cmd.RGB}).kb.last_rgb.totalNs
    ∧ (envFix.now.totalNs
        - ({initSt kbFix with command := Cmd.RGB}).kb.last_rgb.totalNs
          < HERTZ_LIM →
        Ev.sleepEv (HERTZ_LIM - (envFix.now.totalNs
          - ({initSt kbFix with command := Cmd.RGB}).kb.last_rgb.totalNs))
            ∈ ((flushLine envFix {initSt kbFix with command := Cmd.RGB}).2).trace
        ∧ ((flushLine envFix {initSt kbFix with command := Cmd.RGB}).2).kb.last_rgb
            = {envFix.now with tv_nsec := envFix.now.tv_nsec
                + (HERTZ_LIM - (envFix.now.totalNs
                  - ({initSt kbFix with command := Cmd.RGB}).kb.last_rgb.totalNs))})
    ∧ (HERTZ_LIM ≤ envFix.now.totalNs
        - ({initSt kbFix with command := Cmd.RGB}).kb.last_rgb.totalNs →
        ((flushLine envFix {initSt kbFix with command := Cmd.RGB}).2).kb.last_rgb
          = envFix.now
        ∧ (((flushLine envFix {initSt kbFix with command := Cmd.RGB}).2).trace).all
            (fun e => !isSleepEv e) = true)
    ∧ HERTZ_LIM ≤ ((flushLine envFix
          {initSt kbFix with command := Cmd.RGB}).2).kb.last_rgb.totalNs
        - ({initSt kbFix with command := Cmd.RGB}).kb.last_rgb.totalNs :=
  C2_amended envFix {initSt kbFix with command := Cmd.RGB}
    rfl rfl rfl (by decide) (by decide) (by decide) (by decide)
    (by decide) (by decide)

/-! ## C3: the firmware-update gate -/

/-- The external calls a device with a bricked firmware may still
receive: notify-node create/destroy, `reset`, and `fwupdate` itself. -/
def fwAllowedEv : Ev → Bool
  | .mknotify _ => true
  | .rmnotify _ => true
  | .resetEv _ _ => true
  | .fwupdateEv _ _ => true
  | _ => false

/-- With `needs_fw_update` set, one gated dispatch leaves the device
untouched and appends only firmware-allowed events. -/
theorem stepGates_fw (C : Consts) (env : Env) (st : St) (w : String)
    (hfw : st.kb.needsFwUpdate = true)
    (htr : st.trace.all fwAllowedEv = true) :
    (stepGates C env st w).2.kb = st.kb
    ∧ ((stepGates C env st w).2.trace).all fwAllowedEv = true := by
  obtain ⟨kb1, mi, nn, cmd, tk, tr⟩ := st
  dsimp only at hfw htr
  simp only [stepGates]
  split
  · exact ⟨rfl, htr⟩
  split
  · exact ⟨rfl, htr⟩
  rename_i h1 h2
  have hcmd : cmd = Cmd.FWUPDATE ∨ cmd = Cmd.NOTIFYON
      ∨ cmd = Cmd.NOTIFYOFF ∨ cmd = Cmd.RESET := by
    by_contra hc
    push_neg at hc
    exact h2 ⟨hfw, hc.1, hc.2.1, hc.2.2.1, hc.2.2.2⟩
  rcases hcmd with rfl | rfl | rfl | rfl
  · -- FWUPDATE: `alwaysSwitch` falls through; the active-only switch
    -- emits one `fwupdateEv` whether or not the call fails.
    simp only [alwaysSwitch, activeSwitch]
    cases hact : kb1.active <;> cases hff : env.fwFail tk <;>
      simp_all [emit, runHarness, fwAllowedEv, List.all_append]
  · simp only [alwaysSwitch]
    repeat' split
    all_goals
      simp_all [emit, fwAllowedEv, List.all_append]
  · simp only [alwaysSwitch]
    repeat' split
    all_goals
      simp_all [emit, fwAllowedEv, List.all_append]
  · simp only [alwaysSwitch]
    repeat' split
    all_goals
      simp_all [emit, fwAllowedEv, List.all_append]

/-- `stepGates_fw` lifted over the verb match and channel selector. -/
theorem stepWord_fw (C : Consts) (env : Env) (st : St) (w : String)
    (hfw : st.kb.needsFwUpdate = true)
    (htr : st.trace.all fwAllowedEv = true) :
    (stepWord C env st w).2.kb = st.kb
    ∧ ((stepWord C env st w).2.trace).all fwAllowedEv = true := by
  unfold stepWord
  split
  · rename_i c0 heq
    cases hac : isAction (demoteLinux c0) with
    | true =>
      simp only [hac, if_true]
      unfold stepRest
      split
      · split
        · exact ⟨rfl, htr⟩
        · exact stepGates_fw C env _ w hfw htr
      · exact stepGates_fw C env _ w hfw htr
    | false =>
      simp only [hac, Bool.false_eq_true, if_false]
      exact ⟨trivial, htr⟩
  · unfold stepRest
    split
    · split
      · exact ⟨rfl, htr⟩
      · exact stepGates_fw C env st w hfw htr
    · exact stepGates_fw C env st w hfw htr

/-- `stepWord_fw` lifted over the word loop. -/
theorem readWords_fw (C : Consts) (env : Env) (st : St) (ws : List String)
    (hfw : st.kb.needsFwUpdate = true)
    (htr : st.trace.all fwAllowedEv = true) :
    (readWords C env st ws).2.kb = st.kb
    ∧ ((readWords C env st ws).2.trace).all fwAllowedEv = true := by
  induction ws generalizing st with
  | nil => exact ⟨rfl, htr⟩
  | cons w ws ih =>
    simp only [readWords]
    obtain ⟨hk, ht⟩ := stepWord_fw C env st w hfw htr
    split
    · exact ⟨hk, ht⟩
    · have hfw2 : (stepWord C env st w).2.kb.needsFwUpdate = true := by
        rw [hk]; exact hfw
      obtain ⟨hk2, ht2⟩ := ih _ hfw2 ht
      rw [hk2, hk]
      exact ⟨rfl, ht2⟩

/-- C3: on a device whose firmware needs updating, a whole line changes
no device state at all and invokes no external call other than
notify-node create/destroy, `reset` and `fwupdate`; in particular the
end-of-line `updatergb`/`updatedpi` flush is skipped (those events are
not firmware-allowed). -/
theorem C3_fw_gate (C : Consts) (env : Env) (kb : KB) (ws : List String)
    (hfw : kb.needsFwUpdate = true) :
    (readcmd C env kb ws).2.kb = kb
    ∧ ((readcmd C env kb ws).2.trace).all fwAllowedEv = true := by
  have h := readWords_fw C env (initSt kb) ws hfw rfl
  simp only [readcmd]
  split
  · exact h
  · have hskip : flushLine env (readWords C env (initSt kb) ws).2
        = (false, (readWords C env (initSt kb) ws).2) := by
      unfold flushLine
      rw [if_pos]
      rw [h.1]
      exact hfw
    rw [hskip]
    exact h

/-- Witness for `C3_fw_gate`: a bricked fixture device fed a line
mixing rejected verbs (`fps`, `get`) with an honoured `fwupdate`. -/
theorem C3_fw_gate_witness :
    ({kbFix with needsFwUpdate := true} : KB).needsFwUpdate = true
    ∧ (readcmd Cfix envFix {kbFix with needsFwUpdate := true}
        ["fps", "1", "get", "xyz", "fwupdate", "/lib/fw.bin"]).2.kb
        = {kbFix with needsFwUpdate := true}
    ∧ ((readcmd Cfix envFix {kbFix with needsFwUpdate := true}
        ["fps", "1", "get", "xyz", "fwupdate", "/lib/fw.bin"]).2.trace).all
          fwAllowedEv = true :=
  ⟨rfl, (C3_fw_gate Cfix envFix _ _ rfl).1, (C3_fw_gate Cfix envFix _ _ rfl).2⟩

/-! ## C6: the activation gate -/

/-- The external calls an inactive device may still receive: the
always-available family's `get`/`reset`/notify nodes, plus the
`vt->active` attempt and its harness resets. -/
def idleAllowedEv : Ev → Bool
  | .getEv _ _ => true
  | .resetEv _ _ => true
  | .mknotify _ => true
  | .rmnotify _ => true
  | .activeEv _ => true
  | .tryreset => true
  | _ => false

/-- The idle-safe switch touches neither `active` nor `needs_fw_update`
and emits only idle-allowed events. -/
theorem alwaysSwitch_idle_frame (C : Consts) (st : St) (w : String) (st2 : St)
    (h : alwaysSwitch C st w = some st2)
    (htr : st.trace.all idleAllowedEv = true) :
    st2.kb.active = st.kb.active
    ∧ st2.kb.needsFwUpdate = st.kb.needsFwUpdate
    ∧ st2.trace.all idleAllowedEv = true := by
  unfold alwaysSwitch at h
  split at h <;>
    first
      | exact Option.noConfusion h
      | (obtain rfl := Option.some.inj h
         repeat' split
         all_goals simp_all [emit, idleAllowedEv, List.all_append])

/-- With the device inactive and its firmware healthy, one gated
dispatch keeps it inactive (given the `vt->active` call leaves it so)
and appends only idle-allowed events. -/
theorem stepGates_inactive (C : Consts) (env : Env) (st : St) (w : String)
    (hact : st.kb.active = false)
    (hfw : st.kb.needsFwUpdate = false)
    (henv : ∀ t, env.leavesActive t = false)
    (htr : st.trace.all idleAllowedEv = true) :
    (stepGates C env st w).2.kb.active = false
    ∧ (stepGates C env st w).2.kb.needsFwUpdate = false
    ∧ ((stepGates C env st w).2.trace).all idleAllowedEv = true := by
  simp only [stepGates]
  split
  · exact ⟨hact, hfw, htr⟩
  split
  · exact ⟨hact, hfw, htr⟩
  split
  · rename_i st2 heq
    obtain ⟨h1, h2, h3⟩ := alwaysSwitch_idle_frame C st w st2 heq htr
    exact ⟨h1.trans hact, h2.trans hfw, h3⟩
  · have hcond : ¬(st.kb.active = true) := by simp [hact]
    rw [if_pos hcond]
    split
    · have hta : ((tryLoop (Ev.activeEv st.notifynumber) (env.resetOk st.tick)
          (env.actFail st.tick) 0).2).all idleAllowedEv = true :=
        tryLoop_all _ _ _ _ rfl rfl
      split <;> simp_all [runHarness, List.all_append]
    · exact ⟨hact, hfw, htr⟩

/-- `stepGates_inactive` lifted over the verb match and channel
selector. -/
theorem stepWord_inactive (C : Consts) (env : Env) (st : St) (w : String)
    (hact : st.kb.active = false)
    (hfw : st.kb.needsFwUpdate = false)
    (henv : ∀ t, env.leavesActive t = false)
    (htr : st.trace.all idleAllowedEv = true) :
    (stepWord C env st w).2.kb.active = false
    ∧ (stepWord C env st w).2.kb.needsFwUpdate = false
    ∧ ((stepWord C env st w).2.trace).all idleAllowedEv = true := by
  unfold stepWord
  split
  · rename_i c0 heq
    cases hac : isAction (demoteLinux c0) with
    | true =>
      simp only [hac, if_true]
      unfold stepRest
      split
      · split
        · exact ⟨hact, hfw, htr⟩
        · exact stepGates_inactive C env _ w hact hfw henv htr
      · exact stepGates_inactive C env _ w hact hfw henv htr
    | false =>
      simp only [hac, Bool.false_eq_true, if_false]
      exact ⟨hact, hfw, htr⟩
  · unfold stepRest
    split
    · split
      · exact ⟨hact, hfw, htr⟩
      · exact stepGates_inactive C env st w hact hfw henv htr
    · exact stepGates_inactive C env st w hact hfw henv htr

/-- `stepWord_inactive` lifted over the word loop. -/
theorem readWords_inactive (C : Consts) (env : Env) (st : St)
    (ws : List String)
    (hact : st.kb.active = false)
    (hfw : st.kb.needsFwUpdate = false)
    (henv : ∀ t, env.leavesActive t = false)
    (htr : st.trace.all idleAllowedEv = true) :
    (readWords C env st ws).2.kb.active = false
    ∧ (readWords C env st ws).2.kb.needsFwUpdate = false
    ∧ ((readWords C env st ws).2.trace).all idleAllowedEv = true := by
  induction ws generalizing st with
  | nil => exact ⟨hact, hfw, htr⟩
  | cons w ws ih =>
    simp only [readWords]
    obtain ⟨h1, h2, h3⟩ := stepWord_inactive C env st w hact hfw henv htr
    split
    · exact ⟨h1, h2, h3⟩
    · exact ih _ h1 h2 h3

/-- C6: on an inactive, healthy device whose `vt->active` calls leave
it inactive, a whole line's verb processing invokes only the
always-available calls plus `vt->active` attempts and their harness
resets, and the device stays inactive; the word `active` itself does
run `vt->active` through the retry-with-reset harness (its trace is
exactly the harness events on channel 0). -/
theorem C6_inactive_gate (C : Consts) (env : Env) (kb : KB)
    (ws : List String)
    (hact : kb.active = false) (hfw : kb.needsFwUpdate = false)
    (henv : ∀ t, env.leavesActive t = false) :
    ((readWords C env (initSt kb) ws).2.trace).all idleAllowedEv = true
    ∧ (readWords C env (initSt kb) ws).2.kb.active = false
    ∧ (stepWord C env (initSt kb) "active").2.trace
        = (tryLoop (Ev.activeEv 0) (env.resetOk 0) (env.actFail 0) 0).2 := by
  obtain ⟨h1, h2, h3⟩ := readWords_inactive C env (initSt kb) ws hact hfw henv rfl
  refine ⟨h3, h1, ?_⟩
  simp only [stepWord, show matchCmd "active" = some Cmd.ACTIVE from rfl,
    show demoteLinux Cmd.ACTIVE = Cmd.ACTIVE from rfl,
    show isAction Cmd.ACTIVE = true from rfl, if_true,
    stepRest, show scanAt "active" = (none : Option Int) from rfl,
    stepGates]
  split
  · rename_i hcond
    exfalso
    simp only [initSt] at hcond
    rcases hcond with h | ⟨-, h | h | h | h | h⟩ | ⟨-, h⟩ <;> simp at h
  split
  · rename_i hcond
    exfalso
    simp only [initSt] at hcond
    rw [hfw] at hcond
    simp at hcond
  rw [show alwaysSwitch C {initSt kb with command := Cmd.ACTIVE} "active" = none
      from rfl]
  have hcond2 : ¬({initSt kb with command := Cmd.ACTIVE}.kb.active = true) := by
    simp only [initSt]
    simp [hact]
  rw [if_pos hcond2]
  dsimp only
  split <;> simp [runHarness, initSt]

/-- Witness for `C6_inactive_gate`: an idle fixture device fed a line
of dropped active-only verbs around an honoured `active`. -/
theorem C6_inactive_gate_witness :
    ({kbFix with active := false} : KB).active = false
    ∧ ({kbFix with active := false} : KB).needsFwUpdate = false
    ∧ (∀ t, ({envFix with leavesActive := fun _ => false} : Env).leavesActive t
        = false)
    ∧ ((readWords Cfix {envFix with leavesActive := fun _ => false}
          (initSt {kbFix with active := false})
          ["rgb", "ff0000", "active", "name", "foo"]).2.trace).all
        idleAllowedEv = true
    ∧ (readWords Cfix {envFix with leavesActive := fun _ => false}
          (initSt {kbFix with active := false})
          ["rgb", "ff0000", "active", "name", "foo"]).2.kb.active = false
    ∧ (stepWord Cfix {envFix with leavesActive := fun _ => false}
          (initSt {kbFix with active := false}) "active").2.trace
        = (tryLoop (Ev.activeEv 0)
            (({envFix with leavesActive := fun _ => false} : Env).resetOk 0)
            (({envFix with leavesActive := fun _ => false} : Env).actFail 0)
            0).2 := by
  have h := C6_inactive_gate Cfix {envFix with leavesActive := fun _ => false}
    {kbFix with active := false} ["rgb", "ff0000", "active", "name", "foo"]
    rfl rfl (fun _ => rfl)
  exact ⟨rfl, rfl, fun _ => rfl, h.1, h.2.1, h.2.2⟩
